import Mathlib

/-!
Verification development for the Reference Resolution & Citation Formatting
pipeline of `app.py` (the `minmax` repository).

Modelling conventions, used throughout:
* Python strings are `List Char` (`Str`); `"..."` literals enter the model
  via `String.data`.
* Python `None` is `Option.none`; a function that can raise an uncaught
  exception is wrapped in one more `Option` layer, `none` meaning the
  exception escaped.
* External collaborators (Crossref network access, the journal-abbreviation
  collaborator, the Streamlit session language) are explicit parameters.
* ASCII case mapping stands in for Python's `str.lower`/`str.upper` — the
  pipeline only manipulates case of ASCII scheme/format strings.
-/

namespace MinMax

/-- Python strings, modelled as lists of characters. -/
abbrev Str := List Char

/-- Python `str.lower` (ASCII case mapping). -/
def lowerStr (s : Str) : Str := s.map Char.toLower

/-- Python `str.upper` (ASCII case mapping). -/
def upperStr (s : Str) : Str := s.map Char.toUpper

/-- Python `str.strip()`: drop leading and trailing whitespace. -/
def trimStr (s : Str) : Str :=
  ((s.dropWhile Char.isWhitespace).reverse.dropWhile Char.isWhitespace).reverse

/-- Python `str.rstrip(chars)`: drop trailing characters drawn from `chars`. -/
def rstripChars (chars : Str) (s : Str) : Str :=
  (s.reverse.dropWhile (fun c => chars.contains c)).reverse

/-- `BaseCitationFormatter.format_doi` (app.py lines 1005-1021): renders the DOI
in the configured textual format; the second component is the hyperlink
target, always `https://doi.org/<doi>`. -/
def format_doi (doi_format : Str) (doi : Str) : Str × Str :=
  let value :=
    if doi_format = "10.10/xxx".data then doi
    else if doi_format = "doi:10.10/xxx".data then "doi:".data ++ doi
    else if doi_format = "DOI:10.10/xxx".data then "DOI:".data ++ doi
    else if doi_format = "https://doi.org/10.10/xxx".data then
      "https://doi.org/".data ++ doi
    else doi
  (value, "https://doi.org/".data ++ doi)

/-- The anchored substitution
`re.sub(r'^(https?://doi\.org/|doi:|DOI:)', '', doi, flags=re.IGNORECASE)`
inside `ReferenceProcessor._normalize_doi`: the pattern is anchored at the
start of the string, so at most one scheme occurrence is removed; the
alternatives `doi:` and `DOI:` coincide under IGNORECASE and are covered by
one case-folded check. -/
def stripDoiScheme (s : Str) : Str :=
  if ("https://doi.org/".data).isPrefixOf (lowerStr s) then s.drop 16
  else if ("http://doi.org/".data).isPrefixOf (lowerStr s) then s.drop 15
  else if ("doi:".data).isPrefixOf (lowerStr s) then s.drop 4
  else s

/-- `ReferenceProcessor._normalize_doi` (app.py lines 2443-2447): empty input
maps to the empty string, otherwise strip one leading DOI scheme, lowercase,
and strip surrounding whitespace. -/
def normalize_doi (doi : Str) : Str :=
  if doi = [] then []
  else trimStr (lowerStr (stripDoiScheme doi))

theorem lowerStr_append (a b : Str) :
    lowerStr (a ++ b) = lowerStr a ++ lowerStr b :=
  List.map_append _ a b

theorem stripDoiScheme_doiColon (d : Str) (hlow : lowerStr d = d) :
    stripDoiScheme ("doi:".data ++ d) = d := by
  have hl : lowerStr ("doi:".data ++ d) = "doi:".data ++ d := by
    rw [lowerStr_append, hlow]; rfl
  have c1 : ("https://doi.org/".data).isPrefixOf ("doi:".data ++ d) = false := rfl
  have c2 : ("http://doi.org/".data).isPrefixOf ("doi:".data ++ d) = false := rfl
  have c3 : ("doi:".data).isPrefixOf ("doi:".data ++ d) = true := by
    rw [List.isPrefixOf_iff_prefix]; exact List.prefix_append _ _
  simp only [stripDoiScheme, hl, c1, c2, c3, Bool.false_eq_true, if_false, if_true]
  rfl

theorem stripDoiScheme_DOIColon (d : Str) (hlow : lowerStr d = d) :
    stripDoiScheme ("DOI:".data ++ d) = d := by
  have hl : lowerStr ("DOI:".data ++ d) = "doi:".data ++ lowerStr d := by
    rw [lowerStr_append]; rfl
  rw [hlow] at hl
  have c1 : ("https://doi.org/".data).isPrefixOf ("doi:".data ++ d) = false := rfl
  have c2 : ("http://doi.org/".data).isPrefixOf ("doi:".data ++ d) = false := rfl
  have c3 : ("doi:".data).isPrefixOf ("doi:".data ++ d) = true := by
    rw [List.isPrefixOf_iff_prefix]; exact List.prefix_append _ _
  simp only [stripDoiScheme, hl, c1, c2, c3, Bool.false_eq_true, if_false, if_true]
  rfl

theorem stripDoiScheme_url (d : Str) (hlow : lowerStr d = d) :
    stripDoiScheme ("https://doi.org/".data ++ d) = d := by
  have hl : lowerStr ("https://doi.org/".data ++ d) = "https://doi.org/".data ++ d := by
    rw [lowerStr_append, hlow]; rfl
  have c1 : ("https://doi.org/".data).isPrefixOf ("https://doi.org/".data ++ d) = true := by
    rw [List.isPrefixOf_iff_prefix]; exact List.prefix_append _ _
  simp only [stripDoiScheme, hl, c1, if_true]
  rfl

theorem stripDoiScheme_bare (d : Str) (hlow : lowerStr d = d)
    (h1 : ("https://doi.org/".data).isPrefixOf d = false)
    (h2 : ("http://doi.org/".data).isPrefixOf d = false)
    (h3 : ("doi:".data).isPrefixOf d = false) :
    stripDoiScheme d = d := by
  simp only [stripDoiScheme, hlow, h1, h2, h3, Bool.false_eq_true, if_false]

/-- C1 (counterexample): the claim fails as stated — normalization lowercases,
so for the uppercase DOI `10.1039/B917103G` the `doi:` format does not
round-trip to the original string. -/
theorem C1_counterexample :
    normalize_doi (format_doi ("doi:10.10/xxx".data) ("10.1039/B917103G".data)).1
      ≠ "10.1039/B917103G".data := by decide

/-- C1 (amended): for each of the four DOI textual formats, applying the
deduplicator's DOI normalization to the text produced by `format_doi` yields
the original DOI provided the DOI is already lowercase, carries no
surrounding whitespace, and does not itself begin with a DOI scheme
(`https://doi.org/`, `http://doi.org/`, or a case variant of `doi:`). -/
theorem C1_roundtrip (d : Str) (hlow : lowerStr d = d) (htrim : trimStr d = d)
    (h1 : ("https://doi.org/".data).isPrefixOf d = false)
    (h2 : ("http://doi.org/".data).isPrefixOf d = false)
    (h3 : ("doi:".data).isPrefixOf d = false) :
    ∀ fmt ∈ ["10.10/xxx".data, "doi:10.10/xxx".data, "DOI:10.10/xxx".data,
             "https://doi.org/10.10/xxx".data],
      normalize_doi (format_doi fmt d).1 = d := by
  intro fmt hfmt
  simp only [List.mem_cons, List.not_mem_nil, or_false] at hfmt
  rcases hfmt with h | h | h | h <;> subst h
  · show normalize_doi d = d
    by_cases hd : d = []
    · subst hd; rfl
    · simp only [normalize_doi, if_neg hd, stripDoiScheme_bare d hlow h1 h2 h3,
        hlow, htrim]
  · show normalize_doi ("doi:".data ++ d) = d
    have hv : ("doi:".data ++ d) ≠ [] := by simp
    simp only [normalize_doi, if_neg hv, stripDoiScheme_doiColon d hlow, hlow, htrim]
  · show normalize_doi ("DOI:".data ++ d) = d
    have hv : ("DOI:".data ++ d) ≠ [] := by simp
    simp only [normalize_doi, if_neg hv, stripDoiScheme_DOIColon d hlow, hlow, htrim]
  · show normalize_doi ("https://doi.org/".data ++ d) = d
    have hv : ("https://doi.org/".data ++ d) ≠ [] := by simp
    simp only [normalize_doi, if_neg hv, stripDoiScheme_url d hlow, hlow, htrim]

/-- C1 witness: the amended round-trip evaluated at the concrete lowercase DOI
`10.1039/b917103g` and the `https://doi.org/` format. -/
theorem C1_roundtrip_witness :
    normalize_doi
      (format_doi ("https://doi.org/10.10/xxx".data) ("10.1039/b917103g".data)).1
      = "10.1039/b917103g".data :=
  C1_roundtrip ("10.1039/b917103g".data) (by decide) (by decide) (by decide)
    (by decide) (by decide) _ (by decide)

/-! ## Data model -/

/-- One author record `{given, family}` of a `Metadata` dict. -/
structure Author where
  given : Str
  family : Str
deriving DecidableEq

/-- The metadata dict built by `DOIProcessor._extract_metadata_from_api`
(app.py lines 2129-2140).  `year` is an int or `None`; all other fields are
strings.  The `original_doi` key is set equal to `doi` at construction and is
not read by any component modelled here, so it is omitted. -/
structure Metadata where
  authors : List Author
  title : Str
  journal : Str
  year : Option Int
  volume : Str
  issue : Str
  pages : Str
  article_number : Str
  doi : Str
deriving DecidableEq

/-- Per-element formatting options of a custom style element. -/
structure ElementFormat where
  italic : Bool
  bold : Bool
  parentheses : Bool
  separator : Str
deriving DecidableEq

/-- The `style_config` dict (see e.g. app.py lines 3042-3065).  Exactly one of
the ten preset flags is set for a preset style; all of them are false for a
custom style.  `et_al_limit` is an int or `None`. -/
structure StyleConfig where
  author_format : Str
  author_separator : Str
  et_al_limit : Option Int
  use_and_bool : Bool
  use_ampersand_bool : Bool
  doi_format : Str
  doi_hyperlink : Bool
  page_format : Str
  final_punctuation : Bool
  numbering_style : Str
  journal_style : Str
  elements : List (Str × ElementFormat)
  gost_style : Bool
  acs_style : Bool
  rsc_style : Bool
  cta_style : Bool
  style5 : Bool
  style6 : Bool
  style7 : Bool
  style8 : Bool
  style9 : Bool
  style10 : Bool
deriving DecidableEq

/-- One output span: the 6-tuple
`(value, italic, bold, separator, is_doi_hyperlink, doi_value)` appended to
`elements` by the formatters. -/
structure Span where
  text : Str
  italic : Bool
  bold : Bool
  separator : Str
  is_doi_hyperlink : Bool
  doi_value : Option Str
deriving DecidableEq

/-- Result of `format_reference`: the Python pair `(payload, is_error)` where
the payload is an error string (`is_error=True`), a preview string, or the
span list. -/
inductive FmtOut where
  | err (message : Str)
  | preview (text : Str)
  | spans (elements : List Span)
deriving DecidableEq

/-- A concrete `StyleConfig` used for evaluating theorems on sample inputs. -/
def defaultConfig : StyleConfig where
  author_format := "Smith AA".data
  author_separator := ", ".data
  et_al_limit := none
  use_and_bool := false
  use_ampersand_bool := false
  doi_format := "doi:10.10/xxx".data
  doi_hyperlink := true
  page_format := "122-128".data
  final_punctuation := true
  numbering_style := "1.".data
  journal_style := "{Full Journal Name}".data
  elements := []
  gost_style := false
  acs_style := false
  rsc_style := false
  cta_style := false
  style5 := false
  style6 := false
  style7 := false
  style8 := false
  style9 := false
  style10 := false

/-! ## Pages formatting -/

/-- The `while` loop of the `"122–8"` branch of `format_pages`: length of the
longest common prefix of the two page numbers. -/
def commonPrefixLen : Str → Str → Nat
  | a :: as, b :: bs => if a = b then commonPrefixLen as bs + 1 else 0
  | _, _ => 0

/-- `BaseCitationFormatter.format_pages` (app.py lines 952-1003).
The outer `Option` is `none` when the Python code would raise
(`ValueError` from unpacking `pages.split('-')` into two names when the
split has a different arity, or `IndexError` from `end[-1]` on an empty
string); the inner `Option` is `none` for the implicit Python `None`
returned when `'-' ∈ pages` and `page_format` matches no branch.
`pages.split('-')[0]` is always defined (a split is never the empty list),
modelled with `headD`. -/
def format_pages (cfg : StyleConfig) (pages : Str) (article_number : Str)
    (style_type : Str) : Option (Option Str) :=
  if pages ≠ [] then
    if style_type = "rsc".data then
      if pages.contains '-' then
        some (some (trimStr ((pages.splitOn '-').headD [])))
      else some (some (trimStr pages))
    else if style_type = "cta".data then
      if pages.contains '-' then
        match pages.splitOn '-' with
        | [s0, e0] =>
          let start := trimStr s0
          let stop := trimStr e0
          if start.length = stop.length ∧ start.dropLast = stop.dropLast then
            match stop.getLast? with
            | some c => some (some (start ++ "–".data ++ [c]))
            | none => none
          else if 1 < start.length ∧ 1 < stop.length ∧
              start.dropLast.dropLast = stop.dropLast.dropLast then
            some (some (start ++ "–".data ++ stop.drop (stop.length - 2)))
          else some (some (start ++ "–".data ++ stop))
        | _ => none
      else some (some (trimStr pages))
    else
      if ¬ pages.contains '-' then
        if cfg.page_format = "122".data then some (some (trimStr pages))
        else some (some (trimStr pages))
      else
        match pages.splitOn '-' with
        | [s0, e0] =>
          let start := trimStr s0
          let stop := trimStr e0
          if cfg.page_format = "122 - 128".data then
            some (some (start ++ " - ".data ++ stop))
          else if cfg.page_format = "122-128".data then
            some (some (start ++ "-".data ++ stop))
          else if cfg.page_format = "122 – 128".data then
            some (some (start ++ " – ".data ++ stop))
          else if cfg.page_format = "122–128".data then
            some (some (start ++ "–".data ++ stop))
          else if cfg.page_format = "122–8".data then
            some (some (start ++ "–".data ++ stop.drop (commonPrefixLen start stop)))
          else if cfg.page_format = "122".data then some (some start)
          else some none
        | _ => none
  else some (some article_number)

/-- C10 (counterexample): the parenthetical of the claim fails — the result of
`format_pages` can be the empty string although both `pages` and
`article_number` are non-empty (RSC style with `pages = "-5"`: the first
split component is empty). -/
theorem C10_counterexample :
    format_pages defaultConfig ("-5".data) ("A7".data) ("rsc".data) = some (some []) ∧
    ("-5".data : Str) ≠ [] ∧ ("A7".data : Str) ≠ [] := by decide

/-- C10 (amended): for every `page_format` and every `style_type`,
`format_pages` returns `article_number` whenever `pages` is the empty string
(so in that case the result is empty only when `article_number` is empty as
well); for non-empty `pages` the result can still be empty, so emptiness of
the result does not imply that both fields were empty. -/
theorem C10_empty_pages (cfg : StyleConfig) (article_number style_type : Str) :
    format_pages cfg [] article_number style_type = some (some article_number) := by
  simp [format_pages]

/-! ## Metadata cache -/

/-- `Config.CACHE_TTL_HOURS = 24 * 7` (app.py line 53). -/
def CACHE_TTL_HOURS : Int := 24 * 7

/-- The TTL in seconds; SQLite `datetime` comparisons have second
granularity, and all wall-clock instants below are integers of seconds. -/
def ttlSeconds : Int := CACHE_TTL_HOURS * 3600

/-- One row of the `doi_cache` table (app.py lines 456-466).  The serialized
metadata JSON is modelled by the `Metadata` value itself
(`json.dumps`/`json.loads` round-trip as the identity). -/
structure CacheEntry where
  metadata : Metadata
  created_at : Int
  accessed_at : Int
deriving DecidableEq

/-- The `doi_cache` table as an association list; `doi` is the primary key and
`upsertRow` keeps at most one row per key. -/
abbrev CacheState := List (Str × CacheEntry)

/-- `SELECT ... FROM doi_cache WHERE doi = ?` (row retrieval by key). -/
def lookupRow (doi : Str) (st : CacheState) : Option CacheEntry :=
  (st.find? (fun p => p.1 == doi)).map Prod.snd

/-- `INSERT OR REPLACE INTO doi_cache (doi, metadata) VALUES (?, ?)`: the whole
row is replaced, and both timestamp columns take their `CURRENT_TIMESTAMP`
defaults. -/
def upsertRow (doi : Str) (e : CacheEntry) (st : CacheState) : CacheState :=
  (doi, e) :: st.filter (fun p => !(p.1 == doi))

/-- `UPDATE doi_cache SET accessed_at = CURRENT_TIMESTAMP WHERE doi = ?`. -/
def touchRow (doi : Str) (now : Int) (st : CacheState) : CacheState :=
  st.map (fun p =>
    if p.1 == doi then (p.1, { p.2 with accessed_at := now }) else p)

/-- `DOICache.get` (app.py lines 468-486).  `now` is the wall clock; `ioFail`
models an exception from the SQLite operations, which the `try/except` turns
into a `None` result — the method itself never raises.  The `WHERE` clause
`datetime(accessed_at) > datetime("now", "-168 hours")` admits a row exactly
when `now - ttlSeconds < accessed_at`, and a hit refreshes `accessed_at`. -/
def DOICache.get (st : CacheState) (doi : Str) (now : Int) (ioFail : Bool) :
    Option Metadata × CacheState :=
  if ioFail then (none, st)
  else
    match lookupRow doi st with
    | some e =>
        if now - ttlSeconds < e.accessed_at then
          (some e.metadata, touchRow doi now st)
        else (none, st)
    | none => (none, st)

/-- `DOICache.set` (app.py lines 488-497): upsert; an I/O failure is caught
and leaves the table unchanged — the method never raises. -/
def DOICache.set (st : CacheState) (doi : Str) (metadata : Metadata) (now : Int)
    (ioFail : Bool) : CacheState :=
  if ioFail then st
  else upsertRow doi
    { metadata := metadata, created_at := now, accessed_at := now } st

/-- A concrete `Metadata` record used for evaluating theorems on samples. -/
def sampleMetadata : Metadata where
  authors := [⟨"Denis R".data, "Dreyer".data⟩]
  title := "The chemistry of graphene oxide".data
  journal := "Chemical Society Reviews".data
  year := some 2010
  volume := "39".data
  issue := "1".data
  pages := "228-240".data
  article_number := []
  doi := "10.1039/B917103G".data

/-- C5: cache round-trip and TTL semantics.  A `get` right after
`set st d m t0` returns exactly the stored metadata iff `now - t0 < TTL`
(`accessed_at` is `t0` after the upsert); in particular a read at
`t0+TTL-1` hits and a read at `t0+TTL+1` misses; a hit refreshes
`accessed_at`, so after a hit at `t1` a later read hits iff `t2 - t1 < TTL`
(sliding TTL); and an I/O failure makes `get` return `None` without touching
the table and makes `set` a no-op — neither operation ever raises (both are
total functions of the model). -/
theorem C5_cache_ttl :
    (∀ st d m t0 now,
        (DOICache.get (DOICache.set st d m t0 false) d now false).1 = some m
          ↔ now - t0 < ttlSeconds)
  ∧ (∀ st d m t0,
        (DOICache.get (DOICache.set st d m t0 false) d (t0 + ttlSeconds - 1)
          false).1 = some m)
  ∧ (∀ st d m t0,
        (DOICache.get (DOICache.set st d m t0 false) d (t0 + ttlSeconds + 1)
          false).1 = none)
  ∧ (∀ st d m t0 t1 t2, t1 - t0 < ttlSeconds →
        ((DOICache.get
            (DOICache.get (DOICache.set st d m t0 false) d t1 false).2
            d t2 false).1 = some m
          ↔ t2 - t1 < ttlSeconds))
  ∧ (∀ st d now, DOICache.get st d now true = (none, st))
  ∧ (∀ st d m now, DOICache.set st d m now true = st) := by
  have hget : ∀ (rest : CacheState) d e now,
      DOICache.get ((d, e) :: rest) d now false =
        if now - ttlSeconds < e.accessed_at then
          (some e.metadata, touchRow d now ((d, e) :: rest))
        else (none, (d, e) :: rest) := by
    intro rest d e now
    simp [DOICache.get, lookupRow, List.find?_cons_of_pos]
  refine ⟨?_, ?_, ?_, ?_, ?_, ?_⟩
  · intro st d m t0 now
    rw [show DOICache.set st d m t0 false =
        (d, ⟨m, t0, t0⟩) :: st.filter (fun p => !(p.1 == d)) from rfl, hget]
    dsimp only
    split_ifs with h
    · simp only [eq_self_iff_true, true_iff]; omega
    · simp only [reduceCtorEq, false_iff]; omega
  · intro st d m t0
    rw [show DOICache.set st d m t0 false =
        (d, ⟨m, t0, t0⟩) :: st.filter (fun p => !(p.1 == d)) from rfl, hget]
    dsimp only
    rw [if_pos (by omega)]
  · intro st d m t0
    rw [show DOICache.set st d m t0 false =
        (d, ⟨m, t0, t0⟩) :: st.filter (fun p => !(p.1 == d)) from rfl, hget]
    dsimp only
    rw [if_neg (by omega)]
  · intro st d m t0 t1 t2 h01
    rw [show DOICache.set st d m t0 false =
        (d, ⟨m, t0, t0⟩) :: st.filter (fun p => !(p.1 == d)) from rfl, hget]
    dsimp only
    rw [if_pos (by omega)]
    rw [show touchRow d t1 ((d, ⟨m, t0, t0⟩) :: st.filter (fun p => !(p.1 == d)))
        = (d, ⟨m, t0, t1⟩) ::
            touchRow d t1 (st.filter (fun p => !(p.1 == d))) by
      simp [touchRow]]
    rw [hget]
    dsimp only
    split_ifs with h
    · simp only [eq_self_iff_true, true_iff]; omega
    · simp only [reduceCtorEq, false_iff]; omega
  · intro st d now; rfl
  · intro st d m now; rfl

/-- C5 witness: a value set at `t0 = 0` is read back unchanged at
`t0 + TTL - 1`, and after that hit a second read at `604799 + TTL - 1` still
hits (sliding TTL). -/
theorem C5_cache_ttl_witness :
    (DOICache.get
        (DOICache.get (DOICache.set [] ("10.1/x".data) sampleMetadata 0 false)
          ("10.1/x".data) 604799 false).2
        ("10.1/x".data) 1209598 false).1 = some sampleMetadata :=
  (C5_cache_ttl.2.2.2.1 [] ("10.1/x".data) sampleMetadata 0 604799 1209598
    (by decide)).mpr (by decide)

/-! ## Batch orchestration

The worker pools of `_extract_metadata_batch` / `_retry_failed_requests` are
serialized: every submitted task performs exactly one call of the per-DOI
fetch operation `extract_metadata_with_cache`, and each completion writes
only its own index of the index-aligned result array, so the completion
order observed through `as_completed` does not affect the final array.  The
Phase-1 / Phase-2 outcome of the per-DOI operation on a given DOI is the
oracle `fetch1 doi` / `fetch2 doi`; a timeout or exception is `none`. -/

/-- `failed_indices = [i for i, result in enumerate(results) if result is None]`
(app.py line 2313). -/
def failedIndices (results : List (Option Metadata)) : List Nat :=
  (List.range results.length).filter (fun i => decide (results[i]? = some none))

/-- `ReferenceProcessor._retry_failed_requests` (app.py lines 2320-2341):
re-submit exactly the failed indices and write each outcome back into the
index-aligned result array. -/
def retry_failed_requests (fetch2 : Str → Option Metadata)
    (failed_indices : List Nat) (doi_list : List Str)
    (results : List (Option Metadata)) : List (Option Metadata) :=
  failed_indices.foldl (fun res i => res.set i (fetch2 (doi_list.getD i []))) results

/-- `ReferenceProcessor._extract_metadata_batch` (app.py lines 2290-2318):
Phase 1 fetches every DOI, then the retry phase runs only when some index
failed. -/
def extract_metadata_batch (fetch1 fetch2 : Str → Option Metadata)
    (doi_list : List Str) : List (Option Metadata) :=
  let results := doi_list.map fetch1
  let failed := failedIndices results
  if failed ≠ [] then retry_failed_requests fetch2 failed doi_list results
  else results

/-- The Phase-2 submissions: the DOIs at the Phase-1-failed indices. -/
def phase2Calls (fetch1 : Str → Option Metadata) (doi_list : List Str) :
    List Str :=
  (failedIndices (doi_list.map fetch1)).map (fun i => doi_list.getD i [])

/-- The full sequence of per-DOI fetch submissions across both phases:
every input DOI once in Phase 1, plus the failed ones again in Phase 2. -/
def batchCallLog (fetch1 : Str → Option Metadata) (doi_list : List Str) :
    List Str :=
  doi_list ++ phase2Calls fetch1 doi_list

theorem mem_failedIndices (results : List (Option Metadata)) (i : Nat) :
    i ∈ failedIndices results ↔ results[i]? = some none := by
  constructor
  · intro h
    simp only [failedIndices, List.mem_filter, decide_eq_true_eq] at h
    exact h.2
  · intro h
    have hi : i < results.length := by
      by_contra hge
      rw [List.getElem?_eq_none (by omega)] at h
      exact Option.noConfusion h
    simp only [failedIndices, List.mem_filter, decide_eq_true_eq, List.mem_range]
    exact ⟨hi, h⟩

theorem retry_length (fetch2 : Str → Option Metadata) (l : List Nat) :
    ∀ (doi_list : List Str) (res : List (Option Metadata)),
      (retry_failed_requests fetch2 l doi_list res).length = res.length := by
  induction l with
  | nil => intro doi_list res; rfl
  | cons x xs ih =>
    intro doi_list res
    rw [retry_failed_requests, List.foldl_cons]
    have := ih doi_list (res.set x (fetch2 (doi_list.getD x [])))
    rw [retry_failed_requests] at this
    rw [this, List.length_set]

theorem retry_getElem? (fetch2 : Str → Option Metadata) (l : List Nat) :
    ∀ (doi_list : List Str) (res : List (Option Metadata)) (j : Nat),
      (retry_failed_requests fetch2 l doi_list res)[j]? =
        if j ∈ l ∧ j < res.length then some (fetch2 (doi_list.getD j []))
        else res[j]? := by
  induction l with
  | nil => intro doi_list res j; simp [retry_failed_requests]
  | cons x xs ih =>
    intro doi_list res j
    rw [retry_failed_requests, List.foldl_cons]
    have hih := ih doi_list (res.set x (fetch2 (doi_list.getD x []))) j
    rw [retry_failed_requests] at hih
    rw [hih, List.length_set, List.getElem?_set]
    simp only [List.mem_cons]
    by_cases hx : x = j
    · subst hx
      by_cases hl : x < res.length
      · by_cases hm : x ∈ xs
        · rw [if_pos (⟨hm, hl⟩ : x ∈ xs ∧ x < res.length),
            if_pos (⟨Or.inl rfl, hl⟩ : (x = x ∨ x ∈ xs) ∧ x < res.length)]
        · rw [if_neg (fun hc : x ∈ xs ∧ x < res.length => hm hc.1),
            if_pos (rfl : x = x), if_pos hl,
            if_pos (⟨Or.inl rfl, hl⟩ : (x = x ∨ x ∈ xs) ∧ x < res.length)]
      · rw [if_neg (fun hc : x ∈ xs ∧ x < res.length => hl hc.2),
          if_pos (rfl : x = x), if_neg hl,
          if_neg (fun hc : (x = x ∨ x ∈ xs) ∧ x < res.length => hl hc.2),
          List.getElem?_eq_none (by omega)]
    · by_cases hm : j ∈ xs
      · by_cases hl : j < res.length
        · rw [if_pos ⟨hm, hl⟩, if_pos ⟨Or.inr hm, hl⟩]
        · rw [if_neg (fun hc : j ∈ xs ∧ j < res.length => hl hc.2), if_neg hx,
            if_neg (fun hc : (j = x ∨ j ∈ xs) ∧ j < res.length => hl hc.2)]
      · rw [if_neg (fun hc : j ∈ xs ∧ j < res.length => hm hc.1), if_neg hx,
          if_neg (fun hc : (j = x ∨ j ∈ xs) ∧ j < res.length =>
            hc.1.elim (fun h => hx h.symm) hm)]

/-- Outcome for one index of the batch: the Phase-1 result if it succeeded,
otherwise the Phase-2 result. -/
def phaseOutcome (fetch1 fetch2 : Str → Option Metadata) (d : Str) :
    Option Metadata :=
  match fetch1 d with
  | some m => some m
  | none => fetch2 d

theorem phaseOutcome_of_none {fetch1 fetch2 : Str → Option Metadata} {d : Str}
    (h : fetch1 d = none) : phaseOutcome fetch1 fetch2 d = fetch2 d := by
  simp [phaseOutcome, h]

theorem phaseOutcome_of_some {fetch1 fetch2 : Str → Option Metadata} {d : Str}
    {m : Metadata} (h : fetch1 d = some m) :
    phaseOutcome fetch1 fetch2 d = some m := by
  simp [phaseOutcome, h]

/-- C4: for a batch in which the Phase-2 retry succeeds on every Phase-1
failure, the result list is index-aligned with the input (entry `i` is the
Phase-1 outcome for `doi_list[i]`, or the Phase-2 outcome when Phase 1
failed), contains no `None` entries, the number of per-DOI fetch submissions
is exactly `N + M` where `N` is the batch size and `M` the number of Phase-1
failures, and every Phase-2 submission is a DOI whose Phase-1 fetch failed —
a DOI whose Phase-1 fetch succeeded is never fetched again. -/
theorem C4_batch_retry (fetch1 fetch2 : Str → Option Metadata)
    (doi_list : List Str)
    (hretry : ∀ d ∈ phase2Calls fetch1 doi_list, (fetch2 d).isSome) :
    (extract_metadata_batch fetch1 fetch2 doi_list).length = doi_list.length
  ∧ (∀ i, i < doi_list.length →
      (extract_metadata_batch fetch1 fetch2 doi_list)[i]? =
        some (phaseOutcome fetch1 fetch2 (doi_list.getD i [])))
  ∧ (∀ r ∈ extract_metadata_batch fetch1 fetch2 doi_list, r ≠ none)
  ∧ (batchCallLog fetch1 doi_list).length
      = doi_list.length + (failedIndices (doi_list.map fetch1)).length
  ∧ (∀ d ∈ phase2Calls fetch1 doi_list, fetch1 d = none) := by
  have hmapGet : ∀ i, i < doi_list.length →
      (doi_list.map fetch1)[i]? = some (fetch1 (doi_list.getD i [])) := by
    intro i hi
    rw [List.getElem?_map, List.getElem?_eq_getElem hi]
    simp [List.getD_eq_getElem?_getD, List.getElem?_eq_getElem hi]
  have hlen : (extract_metadata_batch fetch1 fetch2 doi_list).length
      = doi_list.length := by
    rw [extract_metadata_batch]
    split_ifs with h
    · rw [retry_length, List.length_map]
    · rw [List.length_map]
  have halign : ∀ i, i < doi_list.length →
      (extract_metadata_batch fetch1 fetch2 doi_list)[i]? =
        some (phaseOutcome fetch1 fetch2 (doi_list.getD i [])) := by
    intro i hi
    rw [extract_metadata_batch]
    by_cases hfail : i ∈ failedIndices (doi_list.map fetch1)
    · have hnone : fetch1 (doi_list.getD i []) = none := by
        have h2 := (mem_failedIndices _ i).mp hfail
        rw [hmapGet i hi] at h2
        exact Option.some.inj h2
      have hne : failedIndices (doi_list.map fetch1) ≠ [] := by
        intro hc; rw [hc] at hfail; exact List.not_mem_nil _ hfail
      rw [if_pos hne, retry_getElem?,
        if_pos ⟨hfail, by simpa using hi⟩, phaseOutcome_of_none hnone]
    · have hval : (doi_list.map fetch1)[i]? =
          some (fetch1 (doi_list.getD i [])) := hmapGet i hi
      have hsome : fetch1 (doi_list.getD i []) ≠ none := by
        intro hc
        exact hfail ((mem_failedIndices _ i).mpr (by rw [hval, hc]))
      have hout : some (fetch1 (doi_list.getD i [])) =
          some (phaseOutcome fetch1 fetch2 (doi_list.getD i [])) := by
        cases hm : fetch1 (doi_list.getD i []) with
        | none => exact absurd hm hsome
        | some m => rw [phaseOutcome_of_some hm]
      split_ifs with hne
      · rw [retry_getElem?, if_neg (fun hc => hfail hc.1), hval, hout]
      · rw [hval, hout]
  refine ⟨hlen, halign, ?_, ?_, ?_⟩
  · intro r hr
    obtain ⟨i, hi, hget⟩ := List.getElem_of_mem hr
    have hi2 : i < doi_list.length := by rwa [hlen] at hi
    have hthis := halign i hi2
    rw [List.getElem?_eq_getElem hi, hget] at hthis
    have hrval := Option.some.inj hthis
    cases hm : fetch1 (doi_list.getD i []) with
    | some m =>
        rw [phaseOutcome_of_some hm] at hrval
        rw [hrval]
        exact fun hc => Option.noConfusion hc
    | none =>
        rw [phaseOutcome_of_none hm] at hrval
        have hs : (fetch2 (doi_list.getD i [])).isSome := by
          apply hretry
          rw [phase2Calls]
          exact List.mem_map.mpr
            ⟨i, (mem_failedIndices _ i).mpr (by rw [hmapGet i hi2, hm]), rfl⟩
        rw [hrval]
        intro hc
        rw [hc] at hs
        exact Bool.noConfusion hs
  · rw [batchCallLog, List.length_append, phase2Calls, List.length_map]
  · intro d hd
    rw [phase2Calls] at hd
    obtain ⟨i, hi, rfl⟩ := List.mem_map.mp hd
    have hmem := (mem_failedIndices _ i).mp hi
    have hlt : i < doi_list.length := by
      by_contra hge
      have hn : (doi_list.map fetch1)[i]? = none :=
        List.getElem?_eq_none (by simp; omega)
      rw [hn] at hmem
      exact Option.noConfusion hmem
    rw [hmapGet i hlt] at hmem
    exact Option.some.inj hmem

/-- A concrete Phase-1 oracle for evaluating `C4_batch_retry`: the first DOI
succeeds, the second fails. -/
def sampleFetch1 (d : Str) : Option Metadata :=
  if d = "10.1/a".data then some sampleMetadata else none

/-- C4 witness: on the two-DOI batch where one fetch fails in Phase 1 and the
retry succeeds, exactly `2 + 1` per-DOI fetch submissions are made. -/
theorem C4_batch_retry_witness :
    (batchCallLog sampleFetch1 ["10.1/a".data, "10.1/b".data]).length = 2 + 1 :=
  (C4_batch_retry sampleFetch1 (fun _ => some sampleMetadata)
    ["10.1/a".data, "10.1/b".data] (by decide)).2.2.2.1.trans (by decide)

/-! ## Deduplication -/

/-- Lexicographic comparison by code point — the order Python `sorted` uses
on strings. -/
def strLe : Str → Str → Bool
  | [], _ => true
  | _ :: _, [] => false
  | a :: as, b :: bs =>
    if a.val < b.val then true
    else if b.val < a.val then false
    else strLe as bs

/-- Stable insertion into an ascending list (helper of `sortStrs`). -/
def insertStr (x : Str) : List Str → List Str
  | [] => [x]
  | y :: ys => if strLe x y then x :: y :: ys else y :: insertStr x ys

/-- Python `sorted` on a list of strings: ascending lexicographic insertion
sort (the result agrees with any correct sort because equal keys are
identical strings). -/
def sortStrs : List Str → List Str
  | [] => []
  | x :: xs => insertStr x (sortStrs xs)

/-- Python `sep.join(parts)`. -/
def joinSep (sep : Str) : List Str → Str
  | [] => []
  | [x] => x
  | x :: y :: rest => x ++ sep ++ joinSep sep (y :: rest)

/-- Python `str(metadata.get('year', ''))`: the `year` key is always present,
holding an int or `None`, so this renders either the decimal digits or the
text `None`. -/
def pyYearStr (y : Option Int) : Str :=
  match y with
  | none => "None".data
  | some n => (toString n).data

/-- `ReferenceProcessor._generate_reference_hash` (app.py lines 2421-2441),
modelled up to the final `hashlib.md5(hash_string).hexdigest()`: the model
returns the digest preimage `hash_string` itself — equal preimages give
equal MD5 digests, which is the only property the duplicate detector uses.
The preimage always contains `||`, so it is never the empty (falsy)
string. -/
def generate_reference_hash (metadata : Option Metadata) : Option Str :=
  match metadata with
  | none => none
  | some m =>
    let authorsPart : Str :=
      if m.authors ≠ [] then
        joinSep ("|".data) (sortStrs (m.authors.map (fun a => lowerStr a.family)))
          ++ "||".data
      else []
    some (authorsPart
      ++ lowerStr (m.title.take 50) ++ "||".data
      ++ lowerStr (m.journal ++ "||".data)
      ++ pyYearStr m.year ++ "||".data
      ++ m.volume ++ "||".data
      ++ m.pages ++ "||".data
      ++ normalize_doi m.doi)

/-- Association-list lookup modelling `ref_hash in seen_hashes` /
`seen_hashes[ref_hash]` (first binding wins; keys are unique anyway). -/
def assocFind (h : Str) : List (Str × Nat) → Option Nat
  | [] => none
  | p :: rest => if p.1 = h then some p.2 else assocFind h rest

/-- A formatted reference as consumed by `_find_duplicates` and
`generate_statistics`: the Python triple `(elements, is_error, metadata)`,
where the first component is an error/preview string or a span list. -/
abbrev FormattedRef := (Str ⊕ List Span) × Bool × Option Metadata

/-- The loop of `ReferenceProcessor._find_duplicates` (app.py lines 2401-2419)
with the enumeration index and both dict accumulators explicit; Python dicts
preserve insertion order, modelled by association lists extended at the
tail. -/
def findDupGo : List FormattedRef → Nat → List (Str × Nat) → List (Nat × Nat) →
    List (Nat × Nat)
  | [], _, _, dups => dups
  | r :: rest, i, seen, dups =>
    if r.2.1 = true ∨ r.2.2 = none then findDupGo rest (i + 1) seen dups
    else
      match generate_reference_hash r.2.2 with
      | none => findDupGo rest (i + 1) seen dups
      | some hs =>
        if hs = [] then findDupGo rest (i + 1) seen dups
        else
          match assocFind hs seen with
          | some v => findDupGo rest (i + 1) seen (dups ++ [(i, v)])
          | none => findDupGo rest (i + 1) (seen ++ [(hs, i)]) dups

/-- `ReferenceProcessor._find_duplicates` (app.py lines 2401-2419): the
duplicate map, as the insertion-ordered list of `(index, canonical index)`
pairs. -/
def find_duplicates (formatted_refs : List FormattedRef) : List (Nat × Nat) :=
  findDupGo formatted_refs 0 [] []

/-- Two metadata records identical except for the textual form of the DOI
(`https://doi.org/10.1039/B917103G`). -/
def dupMdUrl : Metadata where
  authors := [⟨"Daniel R".data, "Dreyer".data⟩, ⟨"Sungjin".data, "Park".data⟩]
  title := "The chemistry of graphene oxide".data
  journal := "Chemical Society Reviews".data
  year := some 2010
  volume := "39".data
  issue := "1".data
  pages := "228-240".data
  article_number := []
  doi := "https://doi.org/10.1039/B917103G".data

/-- The same record with the DOI written as `doi:10.1039/b917103g`. -/
def dupMdDoiColon : Metadata :=
  { dupMdUrl with doi := "doi:10.1039/b917103g".data }

/-- C6: two formatted references whose metadata agree on authors, title,
journal, year, volume and pages, with DOI fields
`https://doi.org/10.1039/B917103G` and `doi:10.1039/b917103g`, produce the
same content hash, and the duplicate map records the later index `1`
pointing at the earlier (first seen) index `0`. -/
theorem C6_doi_forms_hash_equal :
    generate_reference_hash (some dupMdUrl)
      = generate_reference_hash (some dupMdDoiColon) ∧
    find_duplicates
      [(Sum.inl [], false, some dupMdUrl), (Sum.inl [], false, some dupMdDoiColon)]
      = [(1, 0)] := by decide

/-- The effective dedup key of a formatted reference: `some h` exactly when
`_find_duplicates` hashes and compares the entry — not an error, metadata
present, truthy hash string. -/
def refKey (r : FormattedRef) : Option Str :=
  if r.2.1 = true then none
  else
    match generate_reference_hash r.2.2 with
    | none => none
    | some hs => if hs = [] then none else some hs

theorem refKey_valid {r : FormattedRef} {h : Str} (hk : refKey r = some h) :
    r.2.1 = false ∧ r.2.2 ≠ none := by
  obtain ⟨pay, err, md⟩ := r
  cases err with
  | false =>
    refine ⟨rfl, ?_⟩
    cases md with
    | none => simp [refKey, generate_reference_hash] at hk
    | some m => exact fun hc => Option.noConfusion hc
  | true => simp [refKey] at hk

theorem assocFind_mem {h : Str} {v : Nat} :
    ∀ {l : List (Str × Nat)}, assocFind h l = some v → (h, v) ∈ l := by
  intro l
  induction l with
  | nil => exact fun hc => Option.noConfusion hc
  | cons p rest ih =>
    obtain ⟨a, b⟩ := p
    intro hf
    rw [assocFind] at hf
    by_cases hph : a = h
    · rw [if_pos hph] at hf
      subst hph
      rw [← Option.some.inj hf]
      exact List.mem_cons_self _ _
    · rw [if_neg hph] at hf
      exact List.mem_cons_of_mem _ (ih hf)

theorem assocFind_ne_none_of_mem {h : Str} {v : Nat} :
    ∀ {l : List (Str × Nat)}, (h, v) ∈ l → assocFind h l ≠ none := by
  intro l
  induction l with
  | nil => exact fun hm => absurd hm (List.not_mem_nil _)
  | cons p rest ih =>
    obtain ⟨a, b⟩ := p
    intro hm
    rw [assocFind]
    by_cases hph : a = h
    · rw [if_pos hph]; exact fun hc => Option.noConfusion hc
    · rw [if_neg hph]
      rcases List.mem_cons.mp hm with he | hm2
      · injection he with h1 h2
        exact absurd h1.symm hph
      · exact ih hm2

theorem assocFind_append (h : Str) (l1 l2 : List (Str × Nat)) :
    assocFind h (l1 ++ l2) =
      match assocFind h l1 with
      | some v => some v
      | none => assocFind h l2 := by
  induction l1 with
  | nil => rfl
  | cons p rest ih =>
    obtain ⟨a, b⟩ := p
    rw [List.cons_append, assocFind, assocFind]
    by_cases hph : a = h
    · rw [if_pos hph, if_pos hph]
    · rw [if_neg hph, if_neg hph, ih]

theorem findDupGo_cons (r : FormattedRef) (rest : List FormattedRef)
    (i : Nat) (seen : List (Str × Nat)) (dups : List (Nat × Nat)) :
    findDupGo (r :: rest) i seen dups =
      match refKey r with
      | none => findDupGo rest (i + 1) seen dups
      | some hs =>
        match assocFind hs seen with
        | some v => findDupGo rest (i + 1) seen (dups ++ [(i, v)])
        | none => findDupGo rest (i + 1) (seen ++ [(hs, i)]) dups := by
  obtain ⟨pay, err, md⟩ := r
  cases err with
  | true => simp [findDupGo, refKey]
  | false =>
    cases md with
    | none => simp [findDupGo, refKey, generate_reference_hash]
    | some m =>
      rcases hgen : generate_reference_hash (some m) with _ | hs
      · simp [findDupGo, refKey, hgen]
      · by_cases hemp : hs = []
        · subst hemp; simp [findDupGo, refKey, hgen]
        · simp [findDupGo, refKey, hgen, hemp]

/-- Scanning invariant of `seen_hashes`: every binding records a past index
carrying exactly that key, is the first such occurrence, and every processed
index with a key is covered. -/
def SeenInv (refs : List FormattedRef) (i : Nat)
    (seen : List (Str × Nat)) : Prop :=
  (∀ p ∈ seen, p.2 < i ∧
      (∃ r, refs[p.2]? = some r ∧ refKey r = some p.1) ∧
      (∀ j, j < i → ∀ r, refs[j]? = some r → refKey r = some p.1 → p.2 ≤ j))
  ∧ ∀ j, j < i → ∀ r, refs[j]? = some r → ∀ h, refKey r = some h →
      assocFind h seen ≠ none

/-- Scanning invariant of `duplicates_info`: keys are past indices strictly
above their canonical value, the key's entry carries the recorded hash which
is bound to the value in `seen_hashes`, and no recorded index of
`seen_hashes` is a key. -/
def DupsInv (refs : List FormattedRef) (i : Nat) (seen : List (Str × Nat))
    (dups : List (Nat × Nat)) : Prop :=
  (∀ q ∈ dups, q.2 < q.1 ∧ q.1 < i ∧
      ∃ r h, refs[q.1]? = some r ∧ refKey r = some h ∧ (h, q.2) ∈ seen)
  ∧ ∀ q ∈ dups, ∀ p ∈ seen, p.2 ≠ q.1

theorem SeenInv_step_none {refs : List FormattedRef} {i : Nat}
    {seen : List (Str × Nat)} {r : FormattedRef}
    (hs : SeenInv refs i seen) (hri : refs[i]? = some r)
    (hk : refKey r = none) : SeenInv refs (i + 1) seen := by
  obtain ⟨h1, h2⟩ := hs
  constructor
  · intro p hp
    obtain ⟨hpi, hex, hfirst⟩ := h1 p hp
    refine ⟨by omega, hex, ?_⟩
    intro j hj rj hrj hkey
    rcases Nat.lt_succ_iff_lt_or_eq.mp hj with hj2 | hj2
    · exact hfirst j hj2 rj hrj hkey
    · subst hj2
      rw [hri] at hrj
      rw [← Option.some.inj hrj, hk] at hkey
      exact Option.noConfusion hkey
  · intro j hj rj hrj h hkey
    rcases Nat.lt_succ_iff_lt_or_eq.mp hj with hj2 | hj2
    · exact h2 j hj2 rj hrj h hkey
    · subst hj2
      rw [hri] at hrj
      rw [← Option.some.inj hrj, hk] at hkey
      exact Option.noConfusion hkey

theorem SeenInv_step_found {refs : List FormattedRef} {i : Nat}
    {seen : List (Str × Nat)} {r : FormattedRef} {hsk : Str} {v : Nat}
    (hs : SeenInv refs i seen) (hri : refs[i]? = some r)
    (hk : refKey r = some hsk) (hf : assocFind hsk seen = some v) :
    SeenInv refs (i + 1) seen := by
  obtain ⟨h1, h2⟩ := hs
  constructor
  · intro p hp
    obtain ⟨hpi, hex, hfirst⟩ := h1 p hp
    refine ⟨by omega, hex, ?_⟩
    intro j hj rj hrj hkey
    rcases Nat.lt_succ_iff_lt_or_eq.mp hj with hj2 | hj2
    · exact hfirst j hj2 rj hrj hkey
    · omega
  · intro j hj rj hrj h hkey
    rcases Nat.lt_succ_iff_lt_or_eq.mp hj with hj2 | hj2
    · exact h2 j hj2 rj hrj h hkey
    · subst hj2
      rw [hri] at hrj
      rw [← Option.some.inj hrj, hk] at hkey
      rw [← Option.some.inj hkey, hf]
      exact fun hc => Option.noConfusion hc

theorem SeenInv_step_new {refs : List FormattedRef} {i : Nat}
    {seen : List (Str × Nat)} {r : FormattedRef} {hsk : Str}
    (hs : SeenInv refs i seen) (hri : refs[i]? = some r)
    (hk : refKey r = some hsk) (hf : assocFind hsk seen = none) :
    SeenInv refs (i + 1) (seen ++ [(hsk, i)]) := by
  obtain ⟨h1, h2⟩ := hs
  constructor
  · intro p hp
    rcases List.mem_append.mp hp with hp2 | hp2
    · obtain ⟨hpi, hex, hfirst⟩ := h1 p hp2
      refine ⟨by omega, hex, ?_⟩
      intro j hj rj hrj hkey
      rcases Nat.lt_succ_iff_lt_or_eq.mp hj with hj2 | hj2
      · exact hfirst j hj2 rj hrj hkey
      · subst hj2
        rw [hri] at hrj
        rw [← Option.some.inj hrj, hk] at hkey
        have hp1 : p.1 = hsk := (Option.some.inj hkey).symm
        have hmem : (hsk, p.2) ∈ seen := by rw [← hp1]; exact hp2
        exact absurd hf (assocFind_ne_none_of_mem hmem)
    · have hpe : p = (hsk, i) := List.mem_singleton.mp hp2
      subst hpe
      refine ⟨by omega, ⟨r, hri, hk⟩, ?_⟩
      intro j hj rj hrj hkey
      rcases Nat.lt_succ_iff_lt_or_eq.mp hj with hj2 | hj2
      · exact absurd hf (h2 j hj2 rj hrj _ hkey)
      · omega
  · intro j hj rj hrj h hkey
    rcases Nat.lt_succ_iff_lt_or_eq.mp hj with hj2 | hj2
    · have hne := h2 j hj2 rj hrj h hkey
      rw [assocFind_append]
      rcases hfind : assocFind h seen with _ | v
      · exact absurd hfind hne
      · exact fun hc => Option.noConfusion hc
    · subst hj2
      rw [hri] at hrj
      rw [← Option.some.inj hrj, hk] at hkey
      rw [← Option.some.inj hkey, assocFind_append, hf]
      simp [assocFind]

theorem DupsInv_step_mono {refs : List FormattedRef} {i : Nat}
    {seen : List (Str × Nat)} {dups : List (Nat × Nat)}
    (hd : DupsInv refs i seen dups) : DupsInv refs (i + 1) seen dups := by
  obtain ⟨h1, h2⟩ := hd
  refine ⟨?_, h2⟩
  intro q hq
  obtain ⟨a, b, c⟩ := h1 q hq
  exact ⟨a, by omega, c⟩

theorem DupsInv_step_found {refs : List FormattedRef} {i : Nat}
    {seen : List (Str × Nat)} {dups : List (Nat × Nat)} {r : FormattedRef}
    {hsk : Str} {v : Nat}
    (hd : DupsInv refs i seen dups) (hs : SeenInv refs i seen)
    (hri : refs[i]? = some r) (hk : refKey r = some hsk)
    (hf : assocFind hsk seen = some v) :
    DupsInv refs (i + 1) seen (dups ++ [(i, v)]) := by
  obtain ⟨h1, h2⟩ := hd
  constructor
  · intro q hq
    rcases List.mem_append.mp hq with hq2 | hq2
    · obtain ⟨a, b, c⟩ := h1 q hq2
      exact ⟨a, by omega, c⟩
    · have hqe : q = (i, v) := List.mem_singleton.mp hq2
      subst hqe
      have hmem := assocFind_mem hf
      have hvi : v < i := (hs.1 (hsk, v) hmem).1
      exact ⟨hvi, by omega, r, hsk, hri, hk, hmem⟩
  · intro q hq p hp
    rcases List.mem_append.mp hq with hq2 | hq2
    · exact h2 q hq2 p hp
    · have hqe : q = (i, v) := List.mem_singleton.mp hq2
      subst hqe
      have := (hs.1 p hp).1
      simp only []
      omega

theorem DupsInv_step_new {refs : List FormattedRef} {i : Nat}
    {seen : List (Str × Nat)} {dups : List (Nat × Nat)} {hsk : Str}
    (hd : DupsInv refs i seen dups) :
    DupsInv refs (i + 1) (seen ++ [(hsk, i)]) dups := by
  obtain ⟨h1, h2⟩ := hd
  constructor
  · intro q hq
    obtain ⟨a, b, r0, h0, hr0, hk0, hm0⟩ := h1 q hq
    exact ⟨a, by omega, r0, h0, hr0, hk0, List.mem_append_left _ hm0⟩
  · intro q hq p hp
    rcases List.mem_append.mp hp with hp2 | hp2
    · exact h2 q hq p hp2
    · have hpe : p = (hsk, i) := List.mem_singleton.mp hp2
      subst hpe
      have : q.1 < i := (h1 q hq).2.1
      omega

theorem findDupGo_spec (refs : List FormattedRef) :
    ∀ (pending : List FormattedRef) (i : Nat) (seen : List (Str × Nat))
      (dups : List (Nat × Nat)),
      refs.drop i = pending → SeenInv refs i seen → DupsInv refs i seen dups →
      ∀ q ∈ findDupGo pending i seen dups,
        q.2 < q.1 ∧
        (∃ rv hv, refs[q.2]? = some rv ∧ refKey rv = some hv ∧
          (∃ rk, refs[q.1]? = some rk ∧ refKey rk = some hv) ∧
          (∀ j rj, refs[j]? = some rj → refKey rj = some hv → q.2 ≤ j)) ∧
        (∀ w, (q.2, w) ∉ findDupGo pending i seen dups) := by
  intro pending
  induction pending with
  | nil =>
    intro i seen dups hdrop hseen hdups q hq
    have hres : findDupGo [] i seen dups = dups := rfl
    rw [hres] at hq ⊢
    have hlen : refs.length ≤ i := List.drop_eq_nil_iff.mp hdrop
    obtain ⟨hlt, hlti, rk, h, hrk, hkk, hmem⟩ := hdups.1 q hq
    obtain ⟨hq2i, ⟨rv, hrv, hrvk⟩, hfirst⟩ := hseen.1 (h, q.2) hmem
    refine ⟨hlt, ⟨rv, h, hrv, hrvk, ⟨rk, hrk, hkk⟩, ?_⟩, ?_⟩
    · intro j rj hrj hkey
      have hjlen : j < refs.length := by
        by_contra hge
        rw [List.getElem?_eq_none (by omega)] at hrj
        exact Option.noConfusion hrj
      exact hfirst j (by omega) rj hrj hkey
    · intro w hw
      exact absurd rfl (hdups.2 (q.2, w) hw (h, q.2) hmem)
  | cons r rest ih =>
    intro i seen dups hdrop hseen hdups
    have hri : refs[i]? = some r := by
      have h0 := List.getElem?_drop refs i 0
      rw [hdrop] at h0
      simpa using h0.symm
    have hrest : refs.drop (i + 1) = rest := by
      have hdd : (refs.drop i).drop 1 = refs.drop (i + 1) := List.drop_drop 1 i refs
      rw [hdrop] at hdd
      simpa using hdd.symm
    rw [findDupGo_cons]
    rcases hkey : refKey r with _ | hs
    · exact ih (i + 1) seen dups hrest (SeenInv_step_none hseen hri hkey)
        (DupsInv_step_mono hdups)
    · dsimp only
      rcases hfind : assocFind hs seen with _ | v
      · exact ih (i + 1) (seen ++ [(hs, i)]) dups hrest
          (SeenInv_step_new hseen hri hkey hfind) (DupsInv_step_new hdups)
      · exact ih (i + 1) seen (dups ++ [(i, v)]) hrest
          (SeenInv_step_found hseen hri hkey hfind)
          (DupsInv_step_found hdups hseen hri hkey hfind)

/-- C7: every entry `(k, v)` of the duplicate map has a key `k` whose
formatted reference is non-error and metadata-bearing, points at a strictly
smaller canonical index `v` that is never itself a key, and `v` is the first
index whose entry is hashed to the same content hash; entries with
`isError=true` or missing metadata are never hashed (their `refKey` is
`none`, so they can appear at neither position). -/
theorem C7_duplicate_map_invariants (refs : List FormattedRef) :
    ∀ q ∈ find_duplicates refs,
      (∃ rk, refs[q.1]? = some rk ∧ rk.2.1 = false ∧ rk.2.2 ≠ none) ∧
      q.2 < q.1 ∧
      (∀ w, (q.2, w) ∉ find_duplicates refs) ∧
      (∃ rv hv, refs[q.2]? = some rv ∧ rv.2.1 = false ∧ rv.2.2 ≠ none ∧
        refKey rv = some hv ∧
        (∃ rk, refs[q.1]? = some rk ∧ refKey rk = some hv) ∧
        ∀ j rj, refs[j]? = some rj → refKey rj = some hv → q.2 ≤ j) := by
  intro q hq
  have hseen0 : SeenInv refs 0 [] :=
    ⟨fun p hp => absurd hp (List.not_mem_nil _),
     fun j hj => absurd hj (Nat.not_lt_zero _)⟩
  have hdups0 : DupsInv refs 0 [] [] :=
    ⟨fun p hp => absurd hp (List.not_mem_nil _),
     fun p hp => absurd hp (List.not_mem_nil _)⟩
  obtain ⟨hlt, ⟨rv, hv, hrv, hrvk, ⟨rk, hrk, hrkk⟩, hfirst⟩, hnever⟩ :=
    findDupGo_spec refs refs 0 [] [] (by simp) hseen0 hdups0 q hq
  exact ⟨⟨rk, hrk, (refKey_valid hrkk).1, (refKey_valid hrkk).2⟩, hlt, hnever,
    rv, hv, hrv, (refKey_valid hrvk).1, (refKey_valid hrvk).2, hrvk,
    ⟨rk, hrk, hrkk⟩, hfirst⟩

/-- A two-element batch whose entries hash identically. -/
def sampleDupRefs : List FormattedRef :=
  [(Sum.inl [], false, some sampleMetadata),
   (Sum.inl [], false, some sampleMetadata)]

/-- C7 witness: the duplicate entry `(1, 0)` of the sample batch has a
non-error, metadata-bearing reference at its key index. -/
theorem C7_duplicate_map_invariants_witness :
    ∃ rk, sampleDupRefs[(1, 0).1]? = some rk ∧ rk.2.1 = false ∧ rk.2.2 ≠ none :=
  (C7_duplicate_map_invariants sampleDupRefs (1, 0) (by decide)).1

/-! ## Statistics aggregation

`generate_statistics` (app.py lines 4675-4754).  Percentages are modelled as
exact rationals; the source's final `round(percentage, 2)` presentation step
is not modelled (IEEE-754 rounding is outside the embedding), which does not
affect which ratio is computed nor whether it exceeds 100. -/

/-- Python truthiness of the `year` value (`if metadata.get('year')`):
`None` and `0` are falsy. -/
def truthyYear (y : Option Int) : Bool :=
  match y with
  | none => false
  | some n => n != 0

/-- The `journals` occurrence list: journal names of metadata-bearing
entries, in input order, not deduplicated. -/
def journalsOf (formatted_refs : List FormattedRef) : List Str :=
  (formatted_refs.filterMap (fun r => r.2.2)).filterMap
    (fun m => if m.journal ≠ [] then some m.journal else none)

/-- The `years` occurrence list. -/
def yearsOf (formatted_refs : List FormattedRef) : List Int :=
  (formatted_refs.filterMap (fun r => r.2.2)).filterMap
    (fun m => if truthyYear m.year then m.year else none)

/-- The `authors` occurrence list: `"family F."` when a first initial exists,
else the bare family name; authors with falsy family are skipped. -/
def authorsOf (formatted_refs : List FormattedRef) : List Str :=
  (formatted_refs.filterMap (fun r => r.2.2)).flatMap
    (fun m => m.authors.filterMap (fun a =>
      if a.family ≠ [] then
        some (if a.given ≠ [] then
                a.family ++ " ".data ++ a.given.take 1 ++ ".".data
              else a.family)
      else none))

/-- First-occurrence deduplication (accumulator form, structurally
recursive). -/
def firstDedupGo (seen : List Str) : List Str → List Str
  | [] => []
  | x :: xs =>
    if x ∈ seen then firstDedupGo seen xs
    else x :: firstDedupGo (seen ++ [x]) xs

/-- The `unique_dois` set (app.py lines 4701-4706): distinct truthy `doi`
values across all metadata, as a duplicate-free list — only its length is
consumed. -/
def uniqueDoisOf (formatted_refs : List FormattedRef) : List Str :=
  firstDedupGo []
    ((formatted_refs.filterMap (fun r => r.2.2)).filterMap
      (fun m => if m.doi ≠ [] then some m.doi else none))

/-- `collections.Counter` items in first-occurrence (insertion) order. -/
def counterItems (l : List Str) : List (Str × Nat) :=
  (firstDedupGo [] l).map (fun k => (k, l.count k))

/-- Stable insertion for a count-descending order (ties keep insertion
order, as Python's stable `sorted` does). -/
def insertByCount (x : Str × Nat) : List (Str × Nat) → List (Str × Nat)
  | [] => [x]
  | y :: ys => if y.2 ≤ x.2 then x :: y :: ys else y :: insertByCount x ys

/-- Stable sort by count descending. -/
def sortByCountDesc : List (Str × Nat) → List (Str × Nat)
  | [] => []
  | x :: xs => insertByCount x (sortByCountDesc xs)

/-- `Counter.most_common(n)`. -/
def most_common (l : List (Str × Nat)) (n : Nat) : List (Str × Nat) :=
  (sortByCountDesc l).take n

/-- `(count / total_unique_dois) * 100 if total_unique_dois > 0 else 0`. -/
def pct (count : Nat) (total : Nat) : ℚ :=
  if 0 < total then (count : ℚ) / (total : ℚ) * 100 else 0

/-- The dict returned by `generate_statistics` (app.py lines 4747-4754). -/
structure Stats where
  journal_stats : List (Str × Nat × ℚ)
  year_stats : List (Int × Nat × ℚ)
  author_stats : List (Str × Nat × ℚ)
  total_unique_dois : Nat
  needs_more_recent_references : Bool
  has_frequent_author : Bool

/-- `range(current_year, 2009, -1)`. -/
def yearRange (currentYear : Int) : List Int :=
  (List.range (currentYear - 2009).toNat).map (fun k => currentYear - k)

/-- `generate_statistics` (app.py lines 4675-4754).  `currentYear` stands for
`datetime.now().year`. -/
def generate_statistics (currentYear : Int)
    (formatted_refs : List FormattedRef) : Stats :=
  let journals := journalsOf formatted_refs
  let years := yearsOf formatted_refs
  let authors := authorsOf formatted_refs
  let total := (uniqueDoisOf formatted_refs).length
  let journal_stats := (most_common (counterItems journals) 20).map
    (fun p => (p.1, p.2, pct p.2 total))
  let year_stats := (yearRange currentYear).filterMap
    (fun y => if years.count y ≠ 0 then
        some (y, years.count y, pct (years.count y) total)
      else none)
  let recent_count := ((List.range 4).map
    (fun k => years.count (currentYear - (k : Int)))).sum
  let author_stats := (most_common (counterItems authors) 20).map
    (fun p => (p.1, p.2, pct p.2 total))
  { journal_stats := journal_stats
    year_stats := year_stats
    author_stats := author_stats
    total_unique_dois := total
    needs_more_recent_references := decide (pct recent_count total < 20)
    has_frequent_author := author_stats.any (fun p => decide (30 < p.2.2)) }

theorem pct_eq (c t : Nat) : pct c t = (c : ℚ) / (t : ℚ) * 100 := by
  unfold pct
  split_ifs with h
  · rfl
  · have ht : t = 0 := by omega
    subst ht
    simp

theorem mem_insertByCount {q x : Str × Nat} :
    ∀ {l : List (Str × Nat)}, q ∈ insertByCount x l → q = x ∨ q ∈ l := by
  intro l
  induction l with
  | nil =>
    intro hq
    rcases List.mem_singleton.mp hq with h
    exact Or.inl h
  | cons y ys ih =>
    intro hq
    rw [insertByCount] at hq
    split_ifs at hq with hc
    · rcases List.mem_cons.mp hq with h | h
      · exact Or.inl h
      · exact Or.inr h
    · rcases List.mem_cons.mp hq with h | h
      · exact Or.inr (h ▸ List.mem_cons_self _ _)
      · rcases ih h with h2 | h2
        · exact Or.inl h2
        · exact Or.inr (List.mem_cons_of_mem _ h2)

theorem mem_sortByCountDesc {q : Str × Nat} :
    ∀ {l : List (Str × Nat)}, q ∈ sortByCountDesc l → q ∈ l := by
  intro l
  induction l with
  | nil => intro hq; exact absurd hq (List.not_mem_nil _)
  | cons x xs ih =>
    intro hq
    rw [sortByCountDesc] at hq
    rcases mem_insertByCount hq with h | h
    · exact h ▸ List.mem_cons_self _ _
    · exact List.mem_cons_of_mem _ (ih h)

theorem mem_counterItems {q : Str × Nat} {l : List Str}
    (hq : q ∈ counterItems l) : q.2 = l.count q.1 := by
  obtain ⟨k, hk, rfl⟩ := List.mem_map.mp hq
  rfl

theorem count_of_mem_most_common {q : Str × Nat} {l : List Str} {n : Nat}
    (hq : q ∈ most_common (counterItems l) n) : q.2 = l.count q.1 :=
  mem_counterItems (mem_sortByCountDesc (List.take_subset _ _ hq))

/-- An input on which a journal (and author) percentage is 200%: two
metadata-bearing entries share one DOI, one journal and one author. -/
def overcountRefs : List FormattedRef :=
  [(Sum.inl [], false, some sampleMetadata),
   (Sum.inl [], false, some sampleMetadata)]

/-- C3: in `generate_statistics`, every journal, year and author table entry
carries the raw occurrence count of its key and a percentage equal to
`count / totalUniqueDOIs * 100`, where `totalUniqueDOIs` is the number of
distinct DOI strings over all metadata-bearing entries (occurrences are not
deduplicated first) — and consequently there are inputs on which a journal's
and an author's percentage exceeds 100. -/
theorem C3_statistics_percentages :
    (∀ currentYear refs p, p ∈ (generate_statistics currentYear refs).journal_stats →
        p.2.1 = (journalsOf refs).count p.1 ∧
        p.2.2 = (p.2.1 : ℚ) / ((uniqueDoisOf refs).length : ℚ) * 100)
  ∧ (∀ currentYear refs p, p ∈ (generate_statistics currentYear refs).year_stats →
        p.2.1 = (yearsOf refs).count p.1 ∧
        p.2.2 = (p.2.1 : ℚ) / ((uniqueDoisOf refs).length : ℚ) * 100)
  ∧ (∀ currentYear refs p, p ∈ (generate_statistics currentYear refs).author_stats →
        p.2.1 = (authorsOf refs).count p.1 ∧
        p.2.2 = (p.2.1 : ℚ) / ((uniqueDoisOf refs).length : ℚ) * 100)
  ∧ (∃ currentYear refs p,
        p ∈ (generate_statistics currentYear refs).journal_stats ∧ 100 < p.2.2)
  ∧ (∃ currentYear refs p,
        p ∈ (generate_statistics currentYear refs).author_stats ∧ 100 < p.2.2) := by
  refine ⟨?_, ?_, ?_, ?_, ?_⟩
  · intro currentYear refs p hp
    simp only [generate_statistics] at hp
    obtain ⟨q, hq, rfl⟩ := List.mem_map.mp hp
    exact ⟨count_of_mem_most_common hq, by dsimp only; exact pct_eq _ _⟩
  · intro currentYear refs p hp
    simp only [generate_statistics] at hp
    obtain ⟨y, hy, hg⟩ := List.mem_filterMap.mp hp
    by_cases hc : (yearsOf refs).count y ≠ 0
    · rw [if_pos hc] at hg
      rw [← Option.some.inj hg]
      exact ⟨rfl, pct_eq _ _⟩
    · rw [if_neg hc] at hg
      exact Option.noConfusion hg
  · intro currentYear refs p hp
    simp only [generate_statistics] at hp
    obtain ⟨q, hq, rfl⟩ := List.mem_map.mp hp
    exact ⟨count_of_mem_most_common hq, by dsimp only; exact pct_eq _ _⟩
  · refine ⟨2026, overcountRefs,
      ("Chemical Society Reviews".data, 2, pct 2 1), ?_, ?_⟩
    · have hred : (generate_statistics 2026 overcountRefs).journal_stats
          = [("Chemical Society Reviews".data, 2, pct 2 1)] := rfl
      rw [hred]
      exact List.mem_singleton.mpr rfl
    · show (100 : ℚ) < pct 2 1
      rw [pct_eq]
      norm_num
  · refine ⟨2026, overcountRefs, ("Dreyer D.".data, 2, pct 2 1), ?_, ?_⟩
    · have hred : (generate_statistics 2026 overcountRefs).author_stats
          = [("Dreyer D.".data, 2, pct 2 1)] := rfl
      rw [hred]
      exact List.mem_singleton.mpr rfl
    · show (100 : ℚ) < pct 2 1
      rw [pct_eq]
      norm_num

/-- C3 witness: the journal-table clause evaluated on the concrete
two-entry batch: the `Chemical Society Reviews` row carries raw count `2`
and percentage `2 / 1 * 100`. -/
theorem C3_statistics_percentages_witness :
    (("Chemical Society Reviews".data : Str), 2, pct 2 1).2.1
        = (journalsOf overcountRefs).count ("Chemical Society Reviews".data) ∧
    (("Chemical Society Reviews".data : Str), 2, pct 2 1).2.2
        = ((2 : Nat) : ℚ) / (((uniqueDoisOf overcountRefs).length : Nat) : ℚ) * 100 :=
  C3_statistics_percentages.1 2026 overcountRefs
    ("Chemical Society Reviews".data, 2, pct 2 1) (by
      have hred : (generate_statistics 2026 overcountRefs).journal_stats
          = [("Chemical Society Reviews".data, 2, pct 2 1)] := rfl
      rw [hred]
      exact List.mem_singleton.mpr rfl)

/-! ## Formatters: shared helpers -/

/-- Substring test (used to state the double-period / double-separator
properties). -/
def containsSubstr (pat : Str) : Str → Bool
  | [] => pat.isPrefixOf []
  | c :: rest => pat.isPrefixOf (c :: rest) || containsSubstr pat rest

/-- `re.sub(r'\.\.+', '.', s)`: every maximal run of two or more periods is
replaced by a single period.  The scanner flag records whether the previous
character was a period; a run of length one is unchanged by both the regex
and this function. -/
def collapseDotsGo (prevDot : Bool) : Str → Str
  | [] => []
  | c :: rest =>
    if c = '.' then
      if prevDot then collapseDotsGo true rest
      else '.' :: collapseDotsGo true rest
    else c :: collapseDotsGo false rest

/-- `re.sub(r'\.\.+', '.', s)`. -/
def collapseDots (s : Str) : Str := collapseDotsGo false s

/-- Python `str.replace(old, new)` (leftmost, non-overlapping); only ever
applied with a non-empty `old` here, and the `old = []` guard keeps the
recursion well-founded. -/
def replaceStr (old new : Str) : Str → Str
  | [] => []
  | c :: rest =>
    if old.isPrefixOf (c :: rest) && !old.isEmpty then
      new ++ replaceStr old new ((c :: rest).drop old.length)
    else c :: replaceStr old new rest
termination_by s => s.length
decreasing_by
  · simp only [List.length_cons, List.length_drop]
    rename_i hcond
    have hne : old ≠ [] := by
      intro hc
      subst hc
      simp at hcond
    have : 1 ≤ old.length := List.length_pos.mpr hne
    omega
  · simp only [List.length_cons]
    omega

/-- Python `str.split()` (split on whitespace runs, no empty parts); `cur`
accumulates the current token in reverse. -/
def splitWSGo (cur : Str) : Str → List Str
  | [] => if cur = [] then [] else [cur.reverse]
  | c :: rest =>
    if c.isWhitespace then
      if cur = [] then splitWSGo [] rest
      else cur.reverse :: splitWSGo [] rest
    else splitWSGo (c :: cur) rest

/-- Python `str.split()`. -/
def splitWS (s : Str) : List Str := splitWSGo [] s

/-- `initials = given.split()[:2]`;
`first_initial = initials[0][0] if initials else ''` and
`second_initial = initials[1][0].upper() if len(initials) > 1 else ''`
(split parts are never empty, so char `[0]` is `take 1`). -/
def initialPair (given : Str) : Str × Str :=
  match (splitWS given).take 2 with
  | [] => ([], [])
  | [p] => (p.take 1, [])
  | p :: q :: _ => (p.take 1, upperStr (q.take 1))

/-- Python truthiness of the `et_al_limit` config value (int or `None`). -/
def truthyEtAl (e : Option Int) : Bool :=
  match e with
  | none => false
  | some n => n != 0

/-- One author rendered by `BaseCitationFormatter.format_authors`
(app.py lines 914-934), per `author_format`. -/
def authorPiece (cfg : StyleConfig) (a : Author) : Str :=
  let fi := (initialPair a.given).1
  let si := (initialPair a.given).2
  if cfg.author_format = "AA Smith".data then fi ++ si ++ " ".data ++ a.family
  else if cfg.author_format = "A.A. Smith".data then
    if si ≠ [] then fi ++ ".".data ++ si ++ ". ".data ++ a.family
    else fi ++ ". ".data ++ a.family
  else if cfg.author_format = "Smith AA".data then
    a.family ++ " ".data ++ fi ++ si
  else if cfg.author_format = "Smith A.A".data then
    if si ≠ [] then a.family ++ " ".data ++ fi ++ ".".data ++ si ++ ".".data
    else a.family ++ " ".data ++ fi ++ ".".data
  else if cfg.author_format = "Smith, A.A.".data then
    if si ≠ [] then a.family ++ ", ".data ++ fi ++ ".".data ++ si ++ ".".data
    else a.family ++ ", ".data ++ fi ++ ".".data
  else fi ++ ". ".data ++ a.family

/-- The separator placement of `format_authors` (app.py lines 938-945): the
gap before the final author becomes `" and "` / `" & "` when the
corresponding flag is set, all other gaps use the configured separator. -/
def joinAuthorPieces (cfg : StyleConfig) : List Str → Str
  | [] => []
  | [x] => x
  | [x, y] =>
    x ++ (if cfg.use_and_bool || cfg.use_ampersand_bool then
            (if cfg.use_and_bool then " and ".data else " & ".data)
          else cfg.author_separator) ++ y
  | x :: y :: z :: rest =>
    x ++ cfg.author_separator ++ joinAuthorPieces cfg (y :: z :: rest)

/-- `BaseCitationFormatter.format_authors` (app.py lines 888-950). -/
def format_authors (cfg : StyleConfig) (authors : List Author) : Str :=
  if authors = [] then []
  else
    let limit : Nat :=
      if cfg.use_and_bool || cfg.use_ampersand_bool then authors.length
      else
        match cfg.et_al_limit with
        | some n => if n != 0 && decide (0 < n) then n.toNat else authors.length
        | none => authors.length
    let joined := joinAuthorPieces cfg ((authors.take limit).map (authorPiece cfg))
    let withEtAl :=
      match cfg.et_al_limit with
      | some n =>
        if n != 0 && decide ((authors.length : Int) > n)
            && !(cfg.use_and_bool || cfg.use_ampersand_bool) then
          joined ++ " et al".data
        else joined
      | none => joined
    trimStr withEtAl

/-- `BaseCitationFormatter.format_journal_name` (app.py lines 1023-1026):
delegates to the journal-abbreviation collaborator with the configured
`journal_style`. -/
def format_journal_name (abbrevFn : Str → Str → Str) (cfg : StyleConfig)
    (journal_name : Str) : Str :=
  abbrevFn journal_name cfg.journal_style

/-- The localized null-metadata error string, duplicated verbatim at the top
of every formatter (`if not metadata: ...`). -/
def errorMessage (lang : Str) : Str :=
  if lang = "ru".data then "Ошибка: Не удалось отформатировать ссылку.".data
  else "Error: Could not format the reference.".data

/-- Python truthiness of an optional string (`None` and `""` are falsy). -/
def pyTruthy (v : Option Str) : Bool :=
  match v with
  | none => false
  | some s => !s.isEmpty

/-- `start_page, end_page = pages.split('-')` — raises `ValueError` (outer
`none`) unless the split has exactly two parts. -/
def splitPagesPair (pages : Str) : Option (Str × Str) :=
  match pages.splitOn '-' with
  | [s, e] => some (s, e)
  | _ => none

/-! ## Custom formatter -/

/-- The element loop of `CustomCitationFormatter.format_reference`
(app.py lines 1039-1101): per configured element, resolve the field value
(`none` = Python `None`, possible only from `format_pages`), apply
parentheses/markdown wrapping, and record the span together with its
`element_empty` flag; `i` is the enumeration index, the Bool argument is
`previous_element_was_empty`, and an uncaught exception from `format_pages`
propagates as the outer `none`. -/
def customLoop (abbrevFn : Str → Str → Str) (cfg : StyleConfig) (m : Metadata)
    (for_preview : Bool) :
    List (Str × ElementFormat) → Nat → Bool → Option (List (Span × Bool))
  | [], _, _ => some []
  | (element, config) :: rest, i, prevEmpty =>
    let comp : Option (Option Str × Option Str) :=
      if element = "Authors".data then
        some (some (format_authors cfg m.authors), none)
      else if element = "Title".data then some (some m.title, none)
      else if element = "Journal".data then
        some (some (format_journal_name abbrevFn cfg m.journal), none)
      else if element = "Year".data then
        some (some (if truthyYear m.year then pyYearStr m.year else []), none)
      else if element = "Volume".data then some (some m.volume, none)
      else if element = "Issue".data then some (some m.issue, none)
      else if element = "Pages".data then
        match format_pages cfg m.pages m.article_number ("default".data) with
        | none => none
        | some v => some (v, none)
      else if element = "DOI".data then
        some (some (format_doi cfg.doi_format m.doi).1, some m.doi)
      else some (some [], none)
    match comp with
    | none => none
    | some (value, doi_value) =>
      if pyTruthy value then
        let element_empty := !(pyTruthy value)
        let v0 := value.getD []
        let v1 := if config.parentheses then "(".data ++ v0 ++ ")".data else v0
        let separator : Str :=
          if i < cfg.elements.length - 1 then
            if element_empty = false then config.separator
            else if prevEmpty then []
            else config.separator
          else []
        let entry : Span :=
          if for_preview then
            { text :=
                if config.italic && config.bold then "**_".data ++ v1 ++ "_**".data
                else if config.italic then "_".data ++ v1 ++ "_".data
                else if config.bold then "**".data ++ v1 ++ "**".data
                else v1
              italic := config.italic
              bold := config.bold
              separator := separator
              is_doi_hyperlink := false
              doi_value := none }
          else
            { text := v1
              italic := config.italic
              bold := config.bold
              separator := separator
              is_doi_hyperlink := decide (element = "DOI".data) && cfg.doi_hyperlink
              doi_value := doi_value }
        match customLoop abbrevFn cfg m for_preview rest (i + 1) false with
        | none => none
        | some tail => some ((entry, element_empty) :: tail)
      else customLoop abbrevFn cfg m for_preview rest (i + 1) true

/-- The `cleaned_elements` pass (app.py lines 1103-1111): drop empty-flagged
entries and clear the separator of the last raw entry. -/
def cleanElementsGo (n : Nat) : List (Span × Bool) → Nat → List Span
  | [], _ => []
  | (sp, empt) :: rest, i =>
    if empt = false then
      (if i = n - 1 then { sp with separator := [] } else sp)
        :: cleanElementsGo n rest (i + 1)
    else cleanElementsGo n rest (i + 1)

/-- `cleaned_elements` of the custom formatter. -/
def cleanElements (l : List (Span × Bool)) : List Span :=
  cleanElementsGo l.length l 0

/-- The preview assembly loop (app.py lines 1114-1120): concatenate values,
emit each separator except after the last element, and apply
`rstrip(',.') + "."` at the last element when `final_punctuation` is set. -/
def previewAssembleGo (cfg : StyleConfig) (n : Nat) :
    List Span → Nat → Str → Str
  | [], _, acc => acc
  | sp :: rest, i, acc =>
    let acc1 := acc ++ sp.text
    let acc2 :=
      if sp.separator ≠ [] ∧ i < n - 1 then acc1 ++ sp.separator
      else if i = n - 1 ∧ cfg.final_punctuation then
        rstripChars (",.".data) acc1 ++ ".".data
      else acc1
    previewAssembleGo cfg n rest (i + 1) acc2

/-- The assembled preview string before the double-period collapse. -/
def previewAssemble (cfg : StyleConfig) (l : List Span) : Str :=
  previewAssembleGo cfg l.length l 0 []

/-- `CustomCitationFormatter.format_reference` (app.py lines 1031-1125). -/
def CustomCitationFormatter.format_reference (lang : Str)
    (abbrevFn : Str → Str → Str) (cfg : StyleConfig)
    (metadata : Option Metadata) (for_preview : Bool) : Option FmtOut :=
  match metadata with
  | none => some (.err (errorMessage lang))
  | some m =>
    match customLoop abbrevFn cfg m for_preview cfg.elements 0 false with
    | none => none
    | some elems =>
      let cleaned := cleanElements elems
      if for_preview then
        some (.preview (collapseDots (previewAssemble cfg cleaned)))
      else some (.spans cleaned)

/-! ## Preset formatters -/

/-- Join with `sep` in every gap but `lastSep` in the final gap (the
`if i == len - 2` pattern of several preset author loops). -/
def joinSepLast (sep lastSep : Str) : List Str → Str
  | [] => []
  | [x] => x
  | [x, y] => x ++ lastSep ++ y
  | x :: y :: z :: rest => x ++ sep ++ joinSepLast sep lastSep (y :: z :: rest)

/-- Page range with en dash and stripped endpoints, article number as
fallback (ACS, app.py lines 1221-1232); raises on a multi-hyphen range. -/
def acsPages (pages article_number : Str) : Option Str :=
  if pages ≠ [] then
    if pages.contains '-' then
      (splitPagesPair pages).map (fun p => trimStr p.1 ++ "–".data ++ trimStr p.2)
    else some pages
  else if article_number ≠ [] then some article_number
  else some []

/-- Page range with en dash, no stripping, no article-number fallback
(styles 5, 6, 7 and 10); raises on a multi-hyphen range. -/
def dashPages (pages : Str) : Option Str :=
  if pages ≠ [] then
    if pages.contains '-' then
      (splitPagesPair pages).map (fun p => p.1 ++ "–".data ++ p.2)
    else some pages
  else some []

/-- First page of a range, article number as fallback (RSC, app.py lines
1288-1297). -/
def rscPages (pages article_number : Str) : Str :=
  if pages ≠ [] then
    if pages.contains '-' then trimStr ((pages.splitOn '-').headD [])
    else trimStr pages
  else if article_number ≠ [] then article_number
  else []

/-- First page of a range, no fallback (styles 8 and 9). -/
def firstPageStr (pages : Str) : Str :=
  if pages ≠ [] then
    if pages.contains '-' then trimStr ((pages.splitOn '-').headD [])
    else trimStr pages
  else []

/-- `GOSTCitationFormatter.format_reference` (app.py lines 1130-1189). -/
def GOSTCitationFormatter.format_reference (lang : Str) (cfg : StyleConfig)
    (metadata : Option Metadata) (for_preview : Bool) : Option FmtOut :=
  match metadata with
  | none => some (.err (errorMessage lang))
  | some m =>
    let authors_str := joinSep (", ".data) (m.authors.map (fun a =>
      let fi := (initialPair a.given).1
      let si := (initialPair a.given).2
      if si ≠ [] then a.family ++ " ".data ++ fi ++ ".".data ++ si ++ ".".data
      else a.family ++ " ".data ++ fi ++ ".".data))
    let doi_url := "https://doi.org/".data ++ m.doi
    let base :=
      if m.issue ≠ [] then
        authors_str ++ " ".data ++ m.title ++ " // ".data ++ m.journal
          ++ ". – ".data ++ pyYearStr m.year ++ ". – Vol. ".data ++ m.volume
          ++ ", № ".data ++ m.issue
      else
        authors_str ++ " ".data ++ m.title ++ " // ".data ++ m.journal
          ++ ". – ".data ++ pyYearStr m.year ++ ". – Vol. ".data ++ m.volume
    let pagesPart : Option Str :=
      if m.article_number ≠ [] ∧ trimStr m.article_number ≠ [] then
        some (". – Art. ".data ++ trimStr m.article_number)
      else if m.pages ≠ [] ∧ trimStr m.pages ≠ [] then
        if m.pages.contains '-' then
          (splitPagesPair m.pages).map (fun p =>
            ". – Р. ".data ++ trimStr p.1 ++ "-".data ++ trimStr p.2)
        else some (". – Р. ".data ++ trimStr m.pages)
      else if lang = "ru".data then some (". – [Без пагинации]".data)
      else some (". – [No pagination]".data)
    match pagesPart with
    | none => none
    | some pp =>
      let gost_ref := base ++ pp ++ ". – ".data ++ doi_url
      if for_preview then some (.preview gost_ref)
      else
        some (.spans
          [⟨replaceStr doi_url [] gost_ref, false, false, [], false, none⟩,
           ⟨doi_url, false, false, [], true, some m.doi⟩])

/-- `ACSCitationFormatter.format_reference` (app.py lines 1194-1253); the
`re.sub(r'\.\.+', '.')` collapse is applied to the assembled string, which
only the preview output returns — the span list is built from the raw
components. -/
def ACSCitationFormatter.format_reference (lang : Str)
    (abbrevFn : Str → Str → Str) (cfg : StyleConfig)
    (metadata : Option Metadata) (for_preview : Bool) : Option FmtOut :=
  match metadata with
  | none => some (.err (errorMessage lang))
  | some m =>
    let authors_str := joinSep ("; ".data) (m.authors.map (fun a =>
      let fi := (initialPair a.given).1
      let si := (initialPair a.given).2
      if si ≠ [] then a.family ++ ", ".data ++ fi ++ ".".data ++ si ++ ".".data
      else a.family ++ ", ".data ++ fi ++ ".".data))
    match acsPages m.pages m.article_number with
    | none => none
    | some pages_formatted =>
      let journal_name := format_journal_name abbrevFn cfg m.journal
      let doi_url := "https://doi.org/".data ++ m.doi
      let acs_ref := collapseDots (authors_str ++ " ".data ++ m.title
        ++ ". ".data ++ journal_name ++ " ".data ++ pyYearStr m.year
        ++ ", ".data ++ m.volume ++ ", ".data ++ pages_formatted
        ++ ". ".data ++ doi_url)
      if for_preview then some (.preview acs_ref)
      else
        some (.spans
          [⟨authors_str, false, false, " ".data, false, none⟩,
           ⟨m.title, false, false, ". ".data, false, none⟩,
           ⟨journal_name, true, false, " ".data, false, none⟩,
           ⟨pyYearStr m.year, false, true, ", ".data, false, none⟩,
           ⟨m.volume, true, false, ", ".data, false, none⟩,
           ⟨pages_formatted, false, false, ". ".data, false, none⟩,
           ⟨doi_url, false, false, [], true, some m.doi⟩])

/-- `RSCCitationFormatter.format_reference` (app.py lines 1258-1312). -/
def RSCCitationFormatter.format_reference (lang : Str)
    (abbrevFn : Str → Str → Str) (cfg : StyleConfig)
    (metadata : Option Metadata) (for_preview : Bool) : Option FmtOut :=
  match metadata with
  | none => some (.err (errorMessage lang))
  | some m =>
    let authors_str := joinSepLast (", ".data) (" and ".data)
      (m.authors.map (fun a =>
        let fi := (initialPair a.given).1
        let si := (initialPair a.given).2
        if si ≠ [] then fi ++ ".".data ++ si ++ ". ".data ++ a.family
        else fi ++ ". ".data ++ a.family))
    let pages_formatted := rscPages m.pages m.article_number
    let journal_name := format_journal_name abbrevFn cfg m.journal
    let rsc_ref := collapseDots (authors_str ++ ", ".data ++ journal_name
      ++ ", ".data ++ pyYearStr m.year ++ ", ".data ++ m.volume ++ ", ".data
      ++ pages_formatted ++ ".".data)
    if for_preview then some (.preview rsc_ref)
    else
      some (.spans
        [⟨authors_str, false, false, ", ".data, false, none⟩,
         ⟨journal_name, true, false, ", ".data, false, none⟩,
         ⟨pyYearStr m.year, false, false, ", ".data, false, none⟩,
         ⟨m.volume, false, true, ", ".data, false, none⟩,
         ⟨pages_formatted, false, false, ".".data, false, none⟩])

/-- `CTACitationFormatter.format_reference` (app.py lines 1317-1365). -/
def CTACitationFormatter.format_reference (lang : Str)
    (abbrevFn : Str → Str → Str) (cfg : StyleConfig)
    (metadata : Option Metadata) (for_preview : Bool) : Option FmtOut :=
  match metadata with
  | none => some (.err (errorMessage lang))
  | some m =>
    let authors_str := joinSep (", ".data) (m.authors.map (fun a =>
      let fi := (initialPair a.given).1
      let si := (initialPair a.given).2
      if si ≠ [] then a.family ++ " ".data ++ fi ++ si
      else a.family ++ " ".data ++ fi))
    match format_pages cfg m.pages m.article_number ("cta".data) with
    | none => none
    | some v =>
      let pages_formatted := v.getD ("None".data)
      let journal_name := format_journal_name abbrevFn cfg m.journal
      let issue_part := if m.issue ≠ [] then "(".data ++ m.issue ++ ")".data else []
      let cta_ref := authors_str ++ ". ".data ++ m.title ++ ". ".data
        ++ journal_name ++ ". ".data ++ pyYearStr m.year ++ ";".data ++ m.volume
        ++ issue_part ++ ":".data ++ pages_formatted ++ ". doi:".data ++ m.doi
      if for_preview then some (.preview cta_ref)
      else
        some (.spans
          ([⟨authors_str, false, false, ". ".data, false, none⟩,
            ⟨m.title, false, false, ". ".data, false, none⟩,
            ⟨journal_name, true, false, ". ".data, false, none⟩,
            ⟨pyYearStr m.year, false, false, ";".data, false, none⟩,
            ⟨m.volume, false, false, [], false, none⟩]
          ++ [if m.issue ≠ [] then
                ⟨"(".data ++ m.issue ++ ")".data, false, false, ":".data, false, none⟩
              else ⟨[], false, false, ":".data, false, none⟩]
          ++ [⟨pages_formatted, false, false, ". ".data, false, none⟩,
              ⟨"doi:".data ++ m.doi, false, false, [], true, some m.doi⟩]))

/-- `Style5Formatter.format_reference` (app.py lines 1372-1424). -/
def Style5Formatter.format_reference (lang : Str)
    (abbrevFn : Str → Str → Str) (cfg : StyleConfig)
    (metadata : Option Metadata) (for_preview : Bool) : Option FmtOut :=
  match metadata with
  | none => some (.err (errorMessage lang))
  | some m =>
    let authors_str := joinSep (", ".data) (m.authors.map (fun a =>
      let fi := (initialPair a.given).1
      let si := (initialPair a.given).2
      if si ≠ [] then fi ++ ".".data ++ si ++ ". ".data ++ a.family
      else fi ++ ". ".data ++ a.family))
    match dashPages m.pages with
    | none => none
    | some pages_formatted =>
      let journal_name := format_journal_name abbrevFn cfg m.journal
      let doi_url := "https://doi.org/".data ++ m.doi
      let ref := authors_str ++ ", ".data ++ m.title ++ ", ".data ++ journal_name
        ++ " ".data ++ m.volume ++ " (".data ++ pyYearStr m.year ++ ") ".data
        ++ pages_formatted ++ ". ".data ++ doi_url
      if for_preview then some (.preview ref)
      else
        some (.spans
          [⟨authors_str, false, false, ", ".data, false, none⟩,
           ⟨m.title, false, false, ", ".data, false, none⟩,
           ⟨journal_name, false, false, " ".data, false, none⟩,
           ⟨m.volume, false, false, " (".data, false, none⟩,
           ⟨pyYearStr m.year, false, false, ") ".data, false, none⟩,
           ⟨pages_formatted, false, false, ". ".data, false, none⟩,
           ⟨doi_url, false, false, [], true, some m.doi⟩])

/-- `Style6Formatter.format_reference` (app.py lines 1429-1482). -/
def Style6Formatter.format_reference (lang : Str) (cfg : StyleConfig)
    (metadata : Option Metadata) (for_preview : Bool) : Option FmtOut :=
  match metadata with
  | none => some (.err (errorMessage lang))
  | some m =>
    let authors_str := joinSep (", ".data) (m.authors.map (fun a =>
      let fi := (initialPair a.given).1
      let si := (initialPair a.given).2
      if si ≠ [] then a.family ++ ", ".data ++ fi ++ ".".data ++ si ++ ".".data
      else a.family ++ ", ".data ++ fi ++ ".".data))
    match dashPages m.pages with
    | none => none
    | some pages_formatted =>
      let doi_url := "https://doi.org/".data ++ m.doi
      let ref := authors_str ++ " (".data ++ pyYearStr m.year ++ "). ".data
        ++ m.title ++ ". ".data ++ m.journal ++ " ".data ++ m.volume
        ++ ", ".data ++ pages_formatted ++ ". ".data ++ doi_url ++ ".".data
      if for_preview then some (.preview ref)
      else
        some (.spans
          [⟨authors_str, false, false, " (".data, false, none⟩,
           ⟨pyYearStr m.year, false, false, "). ".data, false, none⟩,
           ⟨m.title, false, false, ". ".data, false, none⟩,
           ⟨m.journal, false, false, " ".data, false, none⟩,
           ⟨m.volume, true, false, ", ".data, false, none⟩,
           ⟨pages_formatted, false, false, ". ".data, false, none⟩,
           ⟨doi_url, false, false, [], true, some m.doi⟩,
           ⟨".".data, false, false, [], false, none⟩])

/-- `Style7Formatter.format_reference` (app.py lines 1487-1549). -/
def Style7Formatter.format_reference (lang : Str) (cfg : StyleConfig)
    (metadata : Option Metadata) (for_preview : Bool) : Option FmtOut :=
  match metadata with
  | none => some (.err (errorMessage lang))
  | some m =>
    let authors_str := joinSepLast (", ".data) (" & ".data)
      (m.authors.map (fun a =>
        let fi := (initialPair a.given).1
        let si := (initialPair a.given).2
        if si ≠ [] then a.family ++ ", ".data ++ fi ++ ".".data ++ si ++ ".".data
        else a.family ++ ", ".data ++ fi ++ ".".data))
    match dashPages m.pages with
    | none => none
    | some pages_formatted =>
      let doi_url := "https://doi.org/".data ++ m.doi
      let issue_part :=
        if m.issue ≠ [] then "(".data ++ m.issue ++ "), ".data else []
      let ref := authors_str ++ " (".data ++ pyYearStr m.year ++ "). ".data
        ++ m.title ++ ". ".data ++ m.journal ++ " ".data ++ m.volume
        ++ issue_part ++ pages_formatted ++ ". ".data ++ doi_url ++ ".".data
      if for_preview then some (.preview ref)
      else
        some (.spans
          ([⟨authors_str, false, false, " (".data, false, none⟩,
            ⟨pyYearStr m.year, false, false, "). ".data, false, none⟩,
            ⟨m.title, false, false, ". ".data, false, none⟩,
            ⟨m.journal, true, false, " ".data, false, none⟩,
            ⟨m.volume, true, false, [], false, none⟩]
          ++ [if m.issue ≠ [] then
                ⟨"(".data ++ m.issue ++ ")".data, false, false, ", ".data, false, none⟩
              else ⟨[], false, false, ", ".data, false, none⟩]
          ++ [⟨pages_formatted, false, false, ". ".data, false, none⟩,
              ⟨doi_url, false, false, [], true, some m.doi⟩,
              ⟨".".data, false, false, [], false, none⟩]))

/-- `Style8Formatter.format_reference` (app.py lines 1554-1601). -/
def Style8Formatter.format_reference (lang : Str)
    (abbrevFn : Str → Str → Str) (cfg : StyleConfig)
    (metadata : Option Metadata) (for_preview : Bool) : Option FmtOut :=
  match metadata with
  | none => some (.err (errorMessage lang))
  | some m =>
    let authors_str := joinSep (", ".data) (m.authors.map (fun a =>
      let fi := (initialPair a.given).1
      let si := (initialPair a.given).2
      if si ≠ [] then fi ++ ". ".data ++ si ++ ". ".data ++ a.family
      else fi ++ ". ".data ++ a.family))
    let pages_formatted := firstPageStr m.pages
    let journal_name := format_journal_name abbrevFn cfg m.journal
    let ref := authors_str ++ ", ".data ++ journal_name ++ " ".data
      ++ pyYearStr m.year ++ ", ".data ++ m.volume ++ ", ".data
      ++ pages_formatted ++ ".".data
    if for_preview then some (.preview ref)
    else
      some (.spans
        [⟨authors_str, false, false, ", ".data, false, none⟩,
         ⟨journal_name, true, false, " ".data, false, none⟩,
         ⟨pyYearStr m.year, true, false, ", ".data, false, none⟩,
         ⟨m.volume, false, true, ", ".data, false, none⟩,
         ⟨pages_formatted, false, false, ".".data, false, none⟩])

/-- `Style9Formatter.format_reference` (app.py lines 1606-1657). -/
def Style9Formatter.format_reference (lang : Str)
    (abbrevFn : Str → Str → Str) (cfg : StyleConfig)
    (metadata : Option Metadata) (for_preview : Bool) : Option FmtOut :=
  match metadata with
  | none => some (.err (errorMessage lang))
  | some m =>
    let authors_str := joinSep (", ".data) (m.authors.map (fun a =>
      let fi := (initialPair a.given).1
      let si := (initialPair a.given).2
      if si ≠ [] then fi ++ ".".data ++ si ++ ".".data ++ a.family
      else fi ++ ".".data ++ a.family))
    let pages_formatted := firstPageStr m.pages
    let journal_name := format_journal_name abbrevFn cfg m.journal
    let doi_url := "https://doi.org/".data ++ m.doi
    let ref := authors_str ++ ". ".data ++ journal_name ++ ", ".data ++ m.volume
      ++ ", ".data ++ pages_formatted ++ " (".data ++ pyYearStr m.year
      ++ "); ".data ++ doi_url
    if for_preview then some (.preview ref)
    else
      some (.spans
        [⟨authors_str, false, false, ". ".data, false, none⟩,
         ⟨journal_name, true, false, ", ".data, false, none⟩,
         ⟨m.volume, false, true, ", ".data, false, none⟩,
         ⟨pages_formatted, false, false, " (".data, false, none⟩,
         ⟨pyYearStr m.year, false, false, "); ".data, false, none⟩,
         ⟨doi_url, false, false, [], true, some m.doi⟩])

/-- `Style10Formatter.format_reference` (app.py lines 1662-1720). -/
def Style10Formatter.format_reference (lang : Str)
    (abbrevFn : Str → Str → Str) (cfg : StyleConfig)
    (metadata : Option Metadata) (for_preview : Bool) : Option FmtOut :=
  match metadata with
  | none => some (.err (errorMessage lang))
  | some m =>
    let authors_str := joinSep (" ".data) (m.authors.map (fun a =>
      let fi := (initialPair a.given).1
      let si := (initialPair a.given).2
      if si ≠ [] then a.family ++ " ".data ++ fi ++ si
      else a.family ++ " ".data ++ fi))
    match dashPages m.pages with
    | none => none
    | some pages_formatted =>
      let journal_name := format_journal_name abbrevFn cfg m.journal
      let doi_url := "https://doi.org/".data ++ m.doi
      let issue_part :=
        if m.issue ≠ [] then "(".data ++ m.issue ++ "):".data else []
      let ref := authors_str ++ " (".data ++ pyYearStr m.year ++ ") ".data
        ++ m.title ++ ". ".data ++ journal_name ++ " ".data ++ m.volume
        ++ issue_part ++ pages_formatted ++ ". ".data ++ doi_url
      if for_preview then some (.preview ref)
      else
        some (.spans
          ([⟨authors_str, false, false, " (".data, false, none⟩,
            ⟨pyYearStr m.year, false, false, ") ".data, false, none⟩,
            ⟨m.title, false, false, ". ".data, false, none⟩,
            ⟨journal_name, false, false, " ".data, false, none⟩,
            ⟨m.volume, false, false, [], false, none⟩]
          ++ [if m.issue ≠ [] then
                ⟨"(".data ++ m.issue ++ ")".data, false, false, ":".data, false, none⟩
              else ⟨[], false, false, ":".data, false, none⟩]
          ++ [⟨pages_formatted, false, false, ". ".data, false, none⟩,
              ⟨doi_url, false, false, [], true, some m.doi⟩]))

/-- `CitationFormatterFactory.create_formatter` (app.py lines 1722-1748)
composed with the created formatter's `format_reference`; this is the
module-level `format_reference(metadata, style_config, for_preview)`
(app.py lines 4667-4669), with the ambient session language and the
journal-abbreviation collaborator passed explicitly. -/
def format_reference (lang : Str) (abbrevFn : Str → Str → Str)
    (metadata : Option Metadata) (style_config : StyleConfig)
    (for_preview : Bool) : Option FmtOut :=
  if style_config.gost_style then
    GOSTCitationFormatter.format_reference lang style_config metadata for_preview
  else if style_config.acs_style then
    ACSCitationFormatter.format_reference lang abbrevFn style_config metadata for_preview
  else if style_config.rsc_style then
    RSCCitationFormatter.format_reference lang abbrevFn style_config metadata for_preview
  else if style_config.cta_style then
    CTACitationFormatter.format_reference lang abbrevFn style_config metadata for_preview
  else if style_config.style5 then
    Style5Formatter.format_reference lang abbrevFn style_config metadata for_preview
  else if style_config.style6 then
    Style6Formatter.format_reference lang style_config metadata for_preview
  else if style_config.style7 then
    Style7Formatter.format_reference lang style_config metadata for_preview
  else if style_config.style8 then
    Style8Formatter.format_reference lang abbrevFn style_config metadata for_preview
  else if style_config.style9 then
    Style9Formatter.format_reference lang abbrevFn style_config metadata for_preview
  else if style_config.style10 then
    Style10Formatter.format_reference lang abbrevFn style_config metadata for_preview
  else
    CustomCitationFormatter.format_reference lang abbrevFn style_config metadata
      for_preview

/-! ## C9: null metadata -/

set_option maxHeartbeats 2000000 in
/-- C9: for every `StyleConfig` variant — each of the ten preset flags and
the custom fallback — calling `format_reference` with null metadata returns
`(error string, isError=true)` where the error string is one fixed Russian
or English text determined only by the active language; the call never
raises (the model is a total function whose error branch is reached before
any fallible computation). -/
theorem C9_null_metadata (lang : Str) (abbrevFn : Str → Str → Str)
    (cfg : StyleConfig) (for_preview : Bool) :
    format_reference lang abbrevFn none cfg for_preview
      = some (FmtOut.err (errorMessage lang)) := by
  unfold format_reference
  split_ifs <;> rfl

/-! ## C2: separators and double periods -/

/-- Concatenation of every span text and its following separator — the
claim's reading of the span-list output. -/
def spanConcat (l : List Span) : Str :=
  (l.map (fun sp => sp.text ++ sp.separator)).flatten

/-- A metadata record with a title ending in a period and empty pages. -/
def c2Metadata : Metadata where
  authors := [⟨"John".data, "Smith".data⟩]
  title := "Graphene oxide.".data
  journal := "J".data
  year := some 2010
  volume := "39".data
  issue := []
  pages := []
  article_number := []
  doi := "10.1/x".data

/-- The ACS preset configuration. -/
def acsConfig : StyleConfig := { defaultConfig with acs_style := true }

/-- The ACS span-list output on `c2Metadata`, concatenated. -/
def acsSampleOut : Str :=
  match format_reference ("en".data) (fun n _ => n) (some c2Metadata)
      acsConfig false with
  | some (FmtOut.spans l) => spanConcat l
  | _ => []

/-- C2 (counterexample): the ACS formatter's span-list output on a metadata
record whose title ends in a period and whose pages and article number are
empty contains the double period `..` (title text followed by the `". "`
separator) and contains the two consecutive configured separators `", "`
and `". "` (around the empty pages span), refuting the claim as stated. -/
theorem C2_counterexample :
    containsSubstr ("..".data) acsSampleOut = true ∧
    containsSubstr (", . ".data) acsSampleOut = true := by decide

theorem dotPrefix_collapse_true :
    ∀ s : Str, (['.'] : Str).isPrefixOf (collapseDotsGo true s) = false := by
  intro s
  induction s with
  | nil => rfl
  | cons c rest ih =>
    by_cases hc : c = '.'
    · subst hc
      exact ih
    · rw [show collapseDotsGo true (c :: rest) = c :: collapseDotsGo false rest
        from by simp [collapseDotsGo, hc]]
      show (('.' == c) && (([] : Str).isPrefixOf (collapseDotsGo false rest))) = false
      have h2 : ('.' == c) = false := beq_eq_false_iff_ne.mpr (fun he => hc he.symm)
      rw [h2]
      rfl

theorem collapseDotsGo_no_double :
    ∀ (s : Str) (b : Bool),
      containsSubstr ("..".data) (collapseDotsGo b s) = false := by
  intro s
  induction s with
  | nil => intro b; rfl
  | cons c rest ih =>
    intro b
    by_cases hc : c = '.'
    · subst hc
      cases b with
      | true => exact ih true
      | false =>
        rw [show collapseDotsGo false ('.' :: rest) = '.' :: collapseDotsGo true rest
          from rfl]
        rw [containsSubstr]
        have h1 : ("..".data).isPrefixOf ('.' :: collapseDotsGo true rest) = false := by
          show (('.' == '.') && (['.'] : Str).isPrefixOf (collapseDotsGo true rest))
              = false
          rw [dotPrefix_collapse_true rest]
          rfl
        rw [h1, ih true]
        rfl
    · rw [show collapseDotsGo b (c :: rest) = c :: collapseDotsGo false rest
        from by simp [collapseDotsGo, hc]]
      rw [containsSubstr]
      have h1 : ("..".data).isPrefixOf (c :: collapseDotsGo false rest) = false := by
        show (('.' == c) && (['.'] : Str).isPrefixOf (collapseDotsGo false rest)) = false
        have h2 : ('.' == c) = false := beq_eq_false_iff_ne.mpr (fun he => hc he.symm)
        rw [h2]
        rfl
      rw [h1, ih false]
      rfl

/-- C2 (amended): the custom formatter's preview output never contains a
double period — the assembled string passes through the `\.\.+` collapse,
and the localized error strings contain none.  The span-list outputs of the
preset formatters satisfy neither half of the original claim (see the
counterexample), and separator-adjacency can also fail for preview strings
when a field value ends in a separator, so only the double-period half
survives, for the collapsed preview output. -/
theorem C2_custom_preview_no_double_period (lang : Str)
    (abbrevFn : Str → Str → Str) (cfg : StyleConfig)
    (metadata : Option Metadata) (s : Str)
    (h : CustomCitationFormatter.format_reference lang abbrevFn cfg metadata true
          = some (FmtOut.preview s) ∨
         CustomCitationFormatter.format_reference lang abbrevFn cfg metadata true
          = some (FmtOut.err s)) :
    containsSubstr ("..".data) s = false := by
  have herr : containsSubstr ("..".data) (errorMessage lang) = false := by
    unfold errorMessage
    split_ifs <;> decide
  cases metadata with
  | none =>
    rw [CustomCitationFormatter.format_reference] at h
    rcases h with h | h
    · injection h with h2
      exact FmtOut.noConfusion h2
    · injection h with h2
      injection h2 with h3
      rw [← h3]
      exact herr
  | some m =>
    rw [CustomCitationFormatter.format_reference] at h
    rcases hloop : customLoop abbrevFn cfg m true cfg.elements 0 false with _ | elems
    · rw [hloop] at h
      rcases h with h | h <;> exact Option.noConfusion h
    · rw [hloop] at h
      dsimp only at h
      rcases h with h | h
      · injection h with h2
        injection h2 with h3
        rw [← h3]
        exact collapseDotsGo_no_double _ false
      · injection h with h2
        exact FmtOut.noConfusion h2

/-- A custom configuration rendering only the title. -/
def customTitleConfig : StyleConfig :=
  { defaultConfig with
      elements := [("Title".data, ⟨false, false, false, ", ".data⟩)] }

/-- C2 witness: the amended no-double-period property evaluated on the
custom title-only style and `c2Metadata` (whose preview output is
`Graphene oxide.`). -/
theorem C2_custom_preview_no_double_period_witness :
    containsSubstr ("..".data) ("Graphene oxide.".data) = false :=
  C2_custom_preview_no_double_period ("en".data) (fun n _ => n)
    customTitleConfig (some c2Metadata) ("Graphene oxide.".data)
    (Or.inl (by decide))

/-! ## DOI resolution

`DOIProcessor` (app.py lines 1959-2052).  The regex patterns are embedded as
explicit matchers; `re.search` scans start positions left to right and the
matchers reproduce the (deterministic) backtracking of each pattern, as
noted at each definition. -/

/-- Regex word character (`\w` = `[A-Za-z0-9_]`). -/
def isWordChar (c : Char) : Bool := c.isAlphanum || c = '_'

/-- A character of the DOI suffix class `[-._;()/:A-Za-z0-9]`. -/
def isDoiChar (c : Char) : Bool := c.isAlphanum || ("-._;()/:".data).contains c

/-- Match `10\.\d{4,9}/[-._;()/:A-Za-z0-9]+` at the start of `s`, returning
`(digits, suffix)`.  Backtracking note: `\d{4,9}` must be followed by `/`;
since every shorter digit choice is followed by another digit, the pattern
matches exactly when the full digit run has length 4-9 with `/` right after
it.  The final `+` is greedy with nothing after it, hence the maximal
class-character run. -/
def doiBodyParts (s : Str) : Option (Str × Str) :=
  match s with
  | '1' :: '0' :: '.' :: rest =>
    let digits := rest.takeWhile Char.isDigit
    if 4 ≤ digits.length ∧ digits.length ≤ 9 then
      match rest.drop digits.length with
      | '/' :: after =>
        let body := after.takeWhile isDoiChar
        if body = [] then none else some (digits, body)
      | _ => none
    else none
  | _ => none

/-- The captured group `10.<digits>/<suffix>`. -/
def groupOf (digits body : Str) : Str :=
  "10.".data ++ digits ++ "/".data ++ body

/-- Pattern `https?://doi\.org/(10\....)` (IGNORECASE) at one position. -/
def matchUrlDoiAt (s : Str) : Option Str :=
  if ("https://doi.org/".data).isPrefixOf (lowerStr s) then
    (doiBodyParts (s.drop 16)).map (fun p => groupOf p.1 p.2)
  else if ("http://doi.org/".data).isPrefixOf (lowerStr s) then
    (doiBodyParts (s.drop 15)).map (fun p => groupOf p.1 p.2)
  else none

/-- Patterns `doi:\s*(10\....)` and `DOI:\s*(10\....)` at one position: under
IGNORECASE the two alternatives accept the same strings, covered by one
case-folded check.  The greedy `\s*` is deterministic because the group
starts with the non-whitespace `1`. -/
def matchDoiColonAt (s : Str) : Option Str :=
  if ("doi:".data).isPrefixOf (lowerStr s) then
    (doiBodyParts ((s.drop 4).dropWhile Char.isWhitespace)).map
      (fun p => groupOf p.1 p.2)
  else none

/-- `re.search`: try the position matcher at each start position, leftmost
match wins. -/
def searchPat (matchAt : Str → Option Str) : Str → Option Str
  | [] => matchAt []
  | c :: rest =>
    match matchAt (c :: rest) with
    | some g => some g
    | none => searchPat matchAt rest

/-- Pattern `\b(10\....)\b` at one position, given the preceding character.
The leading `\b` requires the previous character to be absent or non-word
(the next is the word character `1`).  The trailing `\b` backtracks the
greedy class run to the longest prefix ending in a word character: every
non-word class character (`-.;()/:`), when final, sits next to another
non-word character (the run is maximal, so what follows is outside the
class, which contains all word characters) and cannot form a boundary. -/
def matchBareAt (prev : Option Char) (s : Str) : Option Str :=
  if (match prev with | none => true | some p => !isWordChar p) then
    match doiBodyParts s with
    | none => none
    | some (digits, body) =>
      let body2 := (body.reverse.dropWhile (fun c => !isWordChar c)).reverse
      if body2 = [] then none else some (groupOf digits body2)
  else none

/-- `re.search` for the bare pattern, tracking the previous character for
the leading `\b`. -/
def searchBareGo : Option Char → Str → Option Str
  | _, [] => none
  | prev, c :: rest =>
    match matchBareAt prev (c :: rest) with
    | some g => some g
    | none => searchBareGo (some c) rest

/-- Pattern `(10\....)` with no boundaries (the inner search of the
full-line special case, app.py line 2026). -/
def matchPlainAt (s : Str) : Option Str :=
  (doiBodyParts s).map (fun p => groupOf p.1 p.2)

/-- `re.match(r'^(doi:|DOI:)?\s*10\.\d{4,9}/[-._;()/:A-Za-z0-9]+\s*$', ...,
IGNORECASE)` (app.py line 2025).  Deterministic: if the optional scheme is
present, not taking it fails at once on the following `d`; the class
characters are non-whitespace, so giving them back to `\s*$` cannot help. -/
def fullLineDoi (s : Str) : Bool :=
  let rest := if ("doi:".data).isPrefixOf (lowerStr s) then s.drop 4 else s
  let rest2 := rest.dropWhile Char.isWhitespace
  match doiBodyParts rest2 with
  | none => false
  | some (digits, body) =>
    (rest2.drop (3 + digits.length + 1 + body.length)).all Char.isWhitespace

/-- `DOIProcessor._find_explicit_doi` (app.py lines 2009-2030): the four
patterns tried in order over the whole string, first match's group with
trailing `.,;:` stripped; then the special case for a line that is a bare,
optionally `doi:`-prefixed DOI. -/
def find_explicit_doi (reference : Str) : Option Str :=
  match searchPat matchUrlDoiAt reference with
  | some g => some (rstripChars (".,;:".data) g)
  | none =>
    match searchPat matchDoiColonAt reference with
    | some g => some (rstripChars (".,;:".data) g)
    | none =>
      match searchPat matchDoiColonAt reference with
      | some g => some (rstripChars (".,;:".data) g)
      | none =>
        match searchBareGo none reference with
        | some g => some (rstripChars (".,;:".data) g)
        | none =>
          let clean_ref := trimStr reference
          if fullLineDoi clean_ref then
            match searchPat matchPlainAt clean_ref with
            | some g => some (rstripChars (".,;:".data) g)
            | none => none
          else none

/-- Length of a match of `\s*(https?://doi\.org/|doi:|DOI:)\s*[^\s,;]+`
(IGNORECASE) at the start of `s` (the removal pattern of
`_find_bibliographic_doi`, app.py line 2034). -/
def doiRefMatchLen (s : Str) : Option Nat :=
  let ws1 := s.takeWhile Char.isWhitespace
  let s1 := s.drop ws1.length
  let schemeLen : Option Nat :=
    if ("https://doi.org/".data).isPrefixOf (lowerStr s1) then some 16
    else if ("http://doi.org/".data).isPrefixOf (lowerStr s1) then some 15
    else if ("doi:".data).isPrefixOf (lowerStr s1) then some 4
    else none
  match schemeLen with
  | none => none
  | some k =>
    let s2 := s1.drop k
    let ws2 := s2.takeWhile Char.isWhitespace
    let tok := (s2.drop ws2.length).takeWhile
      (fun c => !(c.isWhitespace || c = ',' || c = ';'))
    if tok = [] then none
    else some (ws1.length + k + ws2.length + tok.length)

/-- `re.sub` of the removal pattern with `''`: leftmost, non-overlapping;
every match is at least the scheme long, so one character is always
consumed (`drop (k - 1)` of the tail equals `drop k` of the whole). -/
def removeDoiSubstrings : Str → Str
  | [] => []
  | c :: rest =>
    match doiRefMatchLen (c :: rest) with
    | some k => removeDoiSubstrings (rest.drop (k - 1))
    | none => c :: removeDoiSubstrings rest
termination_by s => s.length
decreasing_by
  · simp only [List.length_cons, List.length_drop]
    omega
  · simp only [List.length_cons]
    omega

/-- `DOIProcessor._find_bibliographic_doi` (app.py lines 2032-2048): strip
DOI substrings, require 30+ characters, then delegate to the Crossref
bibliographic query collaborator (`query` returns the first ranked result's
DOI, or `none` on no result or a caught network error). -/
def find_bibliographic_doi (query : Str → Option Str) (reference : Str) :
    Option Str :=
  let clean_ref := trimStr (removeDoiSubstrings reference)
  if clean_ref.length < 30 then none
  else query clean_ref

/-- `DOIProcessor._find_openalex_doi` (app.py lines 2050-2052): a stub that
always returns `None`. -/
def find_openalex_doi (_reference : Str) : Option Str := none

/-- One regex atom of the section-header patterns. -/
inductive PatAtom where
  | lit (s : Str)
  | opt (c : Char)
  | ws1
  | digits1

/-- Anchored matching of a sequence of atoms against the whole string.
`opt` tries the greedy alternative first (`S?`); `ws1`/`digits1` (`\s+`,
`\d+`) take the maximal run, which is deterministic here because the next
atom never starts with a whitespace/digit character. -/
def matchAtoms : List PatAtom → Str → Bool
  | [], s => s.isEmpty
  | PatAtom.lit p :: as, s => p.isPrefixOf s && matchAtoms as (s.drop p.length)
  | PatAtom.opt c :: as, s =>
    match s with
    | c2 :: rest =>
      if c2 = c then (matchAtoms as rest || matchAtoms as (c2 :: rest))
      else matchAtoms as (c2 :: rest)
    | [] => matchAtoms as []
  | PatAtom.ws1 :: as, s =>
    let r := s.takeWhile Char.isWhitespace
    !r.isEmpty && matchAtoms as (s.drop r.length)
  | PatAtom.digits1 :: as, s =>
    let r := s.takeWhile Char.isDigit
    !r.isEmpty && matchAtoms as (s.drop r.length)

/-- The nine anchored patterns of `_is_section_header`
(app.py lines 1992-2002). -/
def sectionPatterns : List (List PatAtom) :=
  [[.lit ("NOTE".data), .opt 'S', .ws1, .lit ("AND".data), .ws1,
    .lit ("REFERENCE".data), .opt 'S'],
   [.lit ("REFERENCE".data), .opt 'S'],
   [.lit ("BIBLIOGRAPHY".data)],
   [.lit ("LITERATURE".data)],
   [.lit ("WORK".data), .opt 'S', .ws1, .lit ("CITED".data)],
   [.lit ("SOURCE".data), .opt 'S'],
   [.lit ("CHAPTER".data), .ws1, .digits1],
   [.lit ("SECTION".data), .ws1, .digits1],
   [.lit ("PART".data), .ws1, .digits1]]

/-- `DOIProcessor._is_section_header` (app.py lines 1989-2007): uppercase,
strip, then try each anchored pattern. -/
def is_section_header (text : Str) : Bool :=
  let tu := trimStr (upperStr text)
  sectionPatterns.any (fun p => matchAtoms p tu)

/-- `DOIProcessor.find_doi_enhanced` (app.py lines 1966-1987): section
headers resolve to nothing; otherwise explicit extraction, then the
bibliographic search, then the (no-op) OpenAlex resolver. -/
def find_doi_enhanced (query : Str → Option Str) (reference : Str) :
    Option Str :=
  if is_section_header reference then none
  else
    match find_explicit_doi reference with
    | some d => some d
    | none =>
      match find_bibliographic_doi query reference with
      | some d => some d
      | none => find_openalex_doi reference

/-- C8: DOI resolution on
`"See https://doi.org/10.1039/B917103G for details."` returns
`10.1039/B917103G` — the URL pattern (first in the strategy order) matches,
the surrounding prose is discarded, and no further strategy is consulted;
and the group's trailing punctuation is stripped, shown by the
`doi:`-prefixed input `"doi:10.1039/B917103G."` whose captured group ends
in a period that `rstrip('.,;:')` removes. -/
theorem C8_find_doi_enhanced (query : Str → Option Str) :
    find_doi_enhanced query
        ("See https://doi.org/10.1039/B917103G for details.".data)
      = some ("10.1039/B917103G".data) ∧
    find_explicit_doi ("doi:10.1039/B917103G.".data)
      = some ("10.1039/B917103G".data) := by
  exact ⟨rfl, rfl⟩

end MinMax
